import Mathlib

/-!
# Verification of the iota_streams core (shallow embedding)

This file embeds the message-framing-and-state engine of the iota_streams
repository in Lean 4 and proves (or refutes) the specification claims about
it.  The embedding follows the Rust sources:

* `src/streams/src/api/user.rs` — the `User`/`State` machine: the `handle_*`
  receive path, the `create_stream`/`subscribe`/`unsubscribe`/`send_*` send
  path, and the `backup`/`restore` encrypted state serialization
  (`ContentSizeof<State>`, `ContentWrap<State>`, `ContentUnwrap<State>`).
* `src/LETS/src/message/pcf.rs` — the payload-carrying frame (`PCF`) and its
  22-bit `PayloadFrameNum`.
* `src/LETS/src/message/mod.rs` — `Message::wrap` (sizeof / wrap agreement).

The sponge permutation, signatures and key exchange are external
cryptographic services (out of scope per the spec); they are modelled by a
deterministic executable sponge-state model: `mask` encrypts bytes with a
keystream derived from the running state and absorbs the plaintext, exactly
mirroring the wrap/unwrap symmetry of the DDML contexts.  Types whose Rust
sources are not part of the provided `src/` tree (`CursorStore`,
`Identifier`, `Identity`, addresses, the DDML `Size`/`Maybe`/`Mac` codecs)
are modelled from the spec; each such definition says so in its doc comment.
-/

/-! ## Byte-level encodings -/

/-- Big-endian encoding of `v` into exactly `n` bytes (low `8*n` bits),
as `u32::to_be_bytes` and friends produce. -/
def natToBytesBE : Nat → Nat → List Nat
  | 0, _ => []
  | n + 1, v => natToBytesBE n (v / 256) ++ [v % 256]

/-- Big-endian decoding of a byte list (as `u32::from_be_bytes`). -/
def bytesToNatBE (bs : List Nat) : Nat :=
  bs.foldl (fun a b => a * 256 + b) 0

theorem natToBytesBE_length (n v : Nat) : (natToBytesBE n v).length = n := by
  induction n generalizing v with
  | zero => rfl
  | succ k ih => simp [natToBytesBE, ih]

theorem natToBytesBE_lt (n v : Nat) : ∀ b ∈ natToBytesBE n v, b < 256 := by
  induction n generalizing v with
  | zero => simp [natToBytesBE]
  | succ k ih =>
    intro b hb
    simp only [natToBytesBE, List.mem_append, List.mem_singleton] at hb
    rcases hb with h | h
    · exact ih (v / 256) b h
    · subst h; exact Nat.mod_lt _ (by norm_num)

theorem bytesToNatBE_append_singleton (bs : List Nat) (b : Nat) :
    bytesToNatBE (bs ++ [b]) = bytesToNatBE bs * 256 + b := by
  simp [bytesToNatBE]

theorem bytesToNatBE_natToBytesBE (n v : Nat) :
    bytesToNatBE (natToBytesBE n v) = v % 256 ^ n := by
  induction n generalizing v with
  | zero => simp [natToBytesBE, bytesToNatBE, Nat.mod_one]
  | succ k ih =>
    rw [natToBytesBE, bytesToNatBE_append_singleton, ih, pow_succ', Nat.mod_mul]
    omega

theorem bytesToNatBE_natToBytesBE_of_lt {n v : Nat} (h : v < 256 ^ n) :
    bytesToNatBE (natToBytesBE n v) = v := by
  rw [bytesToNatBE_natToBytesBE, Nat.mod_eq_of_lt h]

/-! ## Sponge-state model

The sponge permutation (`KeccakF1600`) is an external cryptographic service.
We model the running `Spongos` state as a `Nat` mixed deterministically:
`absorbByte` mixes one plaintext byte, `commitSt` models `Spongos::commit`,
and the keystream byte for `mask` at a given state is `st % 256`.  `mask`
encrypts with the keystream and absorbs the plaintext (so wrap and unwrap
thread identical states when the plaintexts agree), `squeezeBytes` derives
output bytes from the state (used for `Mac`). -/

def absorbByte (st b : Nat) : Nat := (st * 257 + b + 1) % 2 ^ 64

def absorbBytes (st : Nat) (bs : List Nat) : Nat := bs.foldl absorbByte st

def commitSt (st : Nat) : Nat := (st * 521 + 3) % 2 ^ 64

def squeezeBytes (st n : Nat) : List Nat := natToBytesBE n st

/-- `mask` on the wrap side: encrypt each plaintext byte with the keystream
byte of the current state, absorbing the plaintext.  Returns the ciphertext
and the state after. -/
def maskEncBytes : Nat → List Nat → List Nat × Nat
  | st, [] => ([], st)
  | st, p :: ps =>
      match maskEncBytes (absorbByte st p) ps with
      | (cs, st2) => ((p + st % 256) % 256 :: cs, st2)

/-- `mask` on the unwrap side: decrypt each ciphertext byte, absorbing the
recovered plaintext. -/
def maskDecBytes : Nat → List Nat → List Nat × Nat
  | st, [] => ([], st)
  | st, c :: cs =>
      match maskDecBytes (absorbByte st ((c + 256 - st % 256) % 256)) cs with
      | (ps, st2) => ((c + 256 - st % 256) % 256 :: ps, st2)

theorem maskEncBytes_length (st : Nat) (ps : List Nat) :
    (maskEncBytes st ps).1.length = ps.length := by
  induction ps generalizing st with
  | nil => rfl
  | cons p ps ih => simp [maskEncBytes, ih]

theorem maskEncBytes_state (st : Nat) (ps : List Nat) :
    (maskEncBytes st ps).2 = absorbBytes st ps := by
  induction ps generalizing st with
  | nil => rfl
  | cons p ps ih => simp [maskEncBytes, absorbBytes, List.foldl, ih]

theorem maskDecBytes_maskEncBytes (st : Nat) (ps : List Nat)
    (h : ∀ p ∈ ps, p < 256) :
    maskDecBytes st (maskEncBytes st ps).1 = (ps, absorbBytes st ps) := by
  induction ps generalizing st with
  | nil => simp [maskEncBytes, maskDecBytes, absorbBytes]
  | cons p ps ih =>
    have hp : p < 256 := h p (List.mem_cons_self p ps)
    have hdec : ((p + st % 256) % 256 + 256 - st % 256) % 256 = p := by
      omega
    simp only [maskEncBytes, maskDecBytes]
    rw [hdec, ih (absorbByte st p) (fun q hq => h q (List.mem_cons_of_mem p hq))]
    simp [absorbBytes, List.foldl]

/-! ## DDML wrap/unwrap contexts

`wrap::Context` threads a sponge state and an output byte stream; we model a
wrap command as a function returning the emitted bytes and the new state.
`unwrap::Context` threads a sponge state and the remaining input. -/

/-- The unwrap context: sponge state plus remaining input stream. -/
structure UCtx where
  st : Nat
  inp : List Nat
  deriving DecidableEq, Repr

/-- `absorb` on the wrap side: emit the bytes verbatim and mix them into the
sponge. -/
def wAbsorbBytes (st : Nat) (bs : List Nat) : List Nat × Nat :=
  (bs, absorbBytes st bs)

/-- `skip` on the wrap side: emit the bytes verbatim without touching the
sponge. -/
def wSkipBytes (st : Nat) (bs : List Nat) : List Nat × Nat := (bs, st)

/-- `skip` on the unwrap side: read `n` bytes verbatim without touching the
sponge. -/
def uSkipBytes (n : Nat) (c : UCtx) : Option (List Nat × UCtx) :=
  if n ≤ c.inp.length then some (c.inp.take n, ⟨c.st, c.inp.drop n⟩) else none

/-! ## PCF: payload-carrying frame (`src/LETS/src/message/pcf.rs`) -/

/-- Modelled from the spec: the frame-type constants `INIT_PCF_ID`,
`INTER_PCF_ID`, `FINAL_PCF_ID` live in `LETS/src/message/version.rs`, which
is not part of the provided sources; they are opaque distinct u8 tags. -/
def INIT_PCF_ID : Nat := 0

/-- Modelled from the spec: see `INIT_PCF_ID`. -/
def INTER_PCF_ID : Nat := 1

/-- Modelled from the spec: see `INIT_PCF_ID`. -/
def FINAL_PCF_ID : Nat := 2

/-- `PayloadFrameNum::validate`: the 22-bit bound check
(`payload_frame_num >> 22 == 0`). -/
def pfnValidate (n : Nat) : Bool := n >>> 22 == 0

/-- `PayloadFrameNum::from_u32`: validate, then wrap. -/
def pfnFromU32 (n : Nat) : Option Nat :=
  if pfnValidate n then some n else none

/-- `From<PayloadFrameNum> for NBytes<[u8; 3]>`: take `to_be_bytes()` of the
32-bit value and keep `bytes[1..=3]`. -/
def pfnToNBytes3 (n : Nat) : List Nat := (natToBytesBE 4 n).drop 1

/-- `From<NBytes<[u8; 3]>> for PayloadFrameNum`: prepend a zero byte,
`u32::from_be_bytes`, and `from_u32_unchecked` (no validation). -/
def pfnFromNBytes3 (bs : List Nat) : Nat := bytesToNatBE (0 :: bs)

/-- `PCF<Content>`: frame type, 22-bit payload frame number, content. -/
structure PCF (α : Type) where
  frame_type : Nat
  payload_frame_num : Nat
  content : α
  deriving DecidableEq, Repr

/-- `PCF::new`: fallible construction through `PayloadFrameNum::try_from`. -/
def PCF.new (frame_type : Nat) (payload_frame_num : Nat) (content : α) :
    Option (PCF α) :=
  (pfnFromU32 payload_frame_num).map fun m =>
    { frame_type := frame_type, payload_frame_num := m, content := content }

/-- `PCF::new_final_frame`: `FINAL_PCF_ID` with frame number 1 (unchecked). -/
def PCF.new_final_frame : PCF Unit :=
  { frame_type := FINAL_PCF_ID, payload_frame_num := 1, content := () }

/-- `PCF::with_content`. -/
def PCF.with_content (pcf : PCF α) (c : β) : PCF β :=
  { frame_type := pcf.frame_type, payload_frame_num := pcf.payload_frame_num
    content := c }

/-- `ContentWrap<PCF<Content>>`: `absorb(Uint8(frame_type))`, then
`skip(payload_frame_num)` (3 bytes, no sponge), then the content (given by a
content wrap function `cw`). -/
def wrapPCF (st : Nat) (pcf : PCF α) (cw : Nat → α → List Nat × Nat) :
    List Nat × Nat :=
  let a := wAbsorbBytes st [pcf.frame_type]
  let b := wSkipBytes a.2 (pfnToNBytes3 pcf.payload_frame_num)
  let c := cw b.2 pcf.content
  (a.1 ++ (b.1 ++ c.1), c.2)

/-- `ContentSizeof<PCF<Content>>`: 1 byte for the frame type `Uint8`, 3
bytes for the skipped frame number, plus the content size. -/
def sizeofPCF (csize : Nat) : Nat := 1 + 3 + csize

/-- `Skip<&mut PayloadFrameNum> for unwrap::Context`: read 3 bytes and
convert with `from_u32_unchecked`; no bound validation. -/
def uSkipPayloadFrameNum (c : UCtx) : Option (Nat × UCtx) :=
  match uSkipBytes 3 c with
  | some (bs, c2) => some (pfnFromNBytes3 bs, c2)
  | none => none

theorem pfnToNBytes3_eq (n : Nat) :
    pfnToNBytes3 n = [n / 2 ^ 16 % 256, n / 2 ^ 8 % 256, n % 256] := by
  simp [pfnToNBytes3, natToBytesBE, Nat.div_div_eq_div_mul]

/-- **C5.** Constructing a `PCF` with `payload_frame_num = 2^22` fails,
constructing one with `2^22 - 1` succeeds, and the payload-frame-number is
serialized (by the `skip` emission inside `wrapPCF`) as exactly the low 3
bytes of its 32-bit big-endian representation. -/
theorem c5_pcf_frame_num_bounds :
    (PCF.new FINAL_PCF_ID (2 ^ 22) ()).isNone = true ∧
    (PCF.new FINAL_PCF_ID (2 ^ 22 - 1) ()).isSome = true ∧
    (∀ (n : Nat),
      pfnToNBytes3 n = [n / 2 ^ 16 % 256, n / 2 ^ 8 % 256, n % 256] ∧
      (pfnToNBytes3 n).length = 3) ∧
    (∀ (st : Nat) (pcf : PCF Unit) (cw : Nat → Unit → List Nat × Nat),
      (wrapPCF st pcf cw).1 =
        pcf.frame_type :: (pfnToNBytes3 pcf.payload_frame_num ++
          (cw (absorbBytes st [pcf.frame_type]) pcf.content).1)) := by
  refine ⟨by decide, by decide, fun n => ⟨pfnToNBytes3_eq n, ?_⟩, ?_⟩
  · simp [pfnToNBytes3, natToBytesBE_length]
  · intro st pcf cw
    simp [wrapPCF, wAbsorbBytes, wSkipBytes]

/-- **C10.** On the unwrap path, the 3-byte payload-frame-number is read with
`from_u32_unchecked` and never validated: `uSkipPayloadFrameNum` succeeds on
every 3-byte input, returning the big-endian value, including values in
`[2^22, 2^24)` that construction (`pfnFromU32`) rejects. -/
theorem c10_pfn_unwrap_unchecked :
    (∀ (st b1 b2 b3 : Nat) (rest : List Nat),
      uSkipPayloadFrameNum ⟨st, b1 :: b2 :: b3 :: rest⟩ =
        some ((b1 * 256 + b2) * 256 + b3, ⟨st, rest⟩)) ∧
    uSkipPayloadFrameNum ⟨0, [255, 255, 255]⟩ = some (2 ^ 24 - 1, ⟨0, []⟩) ∧
    2 ^ 22 ≤ 2 ^ 24 - 1 ∧
    pfnFromU32 (2 ^ 24 - 1) = none := by
  refine ⟨?_, by decide, by decide, by decide⟩
  intro st b1 b2 b3 rest
  simp [uSkipPayloadFrameNum, uSkipBytes, pfnFromNBytes3, bytesToNatBE]

/-! ## Identifiers, identities, addresses

`lets::id::{Identifier, Identity, Permissioned, Psk, PskId}` and
`lets::address::{Address, AppAddr, MsgId}` are declared outside the provided
sources.  They are modelled from the spec: an `Identifier` is a tagged union
over an Ed25519 public key, a pre-shared-key id, or a DID method id (ordered
tag first); an `Identity` is the private counterpart; `AppAddr` is derived
from the author identifier and a stream index, `MsgId` from
(`AppAddr`, publisher, sequence); `Permissioned` is Read / ReadWrite /
Admin.  Fixed-width byte strings are represented by `Nat` values bounded by
`256 ^ width`. -/

/-- Modelled from the spec: `Identifier` tagged union. -/
inductive Identifier where
  | ed (pk : Nat)
  | psk (pskid : Nat)
  | did (methodId : Nat)
  deriving DecidableEq, Repr

/-- Modelled from the spec: `Identity` (private counterpart). -/
inductive Identity where
  | keyPair (sigSk : Nat) (keSk : Nat)
  | pskI (psk : Nat)
  | didI (info : Nat)
  deriving DecidableEq, Repr

/-- Modelled from the spec: `PskId` is a deterministic 16-byte identifier of
a 32-byte `Psk`. -/
def pskIdOf (psk : Nat) : Nat := psk % 256 ^ 16

/-- Modelled from the spec: `Identity::to_identifier`. -/
def Identity.toIdentifier : Identity → Identifier
  | .keyPair sigSk _ => .ed sigSk
  | .pskI psk => .psk (pskIdOf psk)
  | .didI info => .did info

/-- Modelled from the spec: `AppAddr::gen(author_identifier, stream_idx)`. -/
structure AppAddr where
  author : Identifier
  streamIdx : Nat
  deriving DecidableEq, Repr

/-- Modelled from the spec: `MsgId::gen(app_addr, publisher, sequence)`. -/
structure MsgId where
  base : AppAddr
  publisher : Identifier
  seq : Nat
  deriving DecidableEq, Repr

/-- `Address = (AppAddr, MsgId)`; `relative()` projects the `MsgId`. -/
structure Address where
  base : AppAddr
  relative : MsgId
  deriving DecidableEq, Repr

/-- Modelled from the spec: `Permissioned<Id>` with Read / ReadWrite(dur) /
Admin. -/
inductive Permissioned (α : Type) where
  | read (id : α)
  | readWrite (id : α) (duration : Nat)
  | admin (id : α)
  deriving DecidableEq, Repr

/-- `Permissioned::identifier()`. -/
def Permissioned.identifier : Permissioned α → α
  | .read id => id
  | .readWrite id _ => id
  | .admin id => id

/-- `Permissioned::is_readonly()`: true exactly for `Read`. -/
def Permissioned.isReadonly : Permissioned α → Bool
  | .read _ => true
  | _ => false

/-! ## Association-list stores

`hashbrown::HashMap` (and the `CursorStore` wrapper, whose source is not in
`src/`) are modelled as association lists: the list order is the map's
internal iteration order, and map equality (`PartialEq` on `HashMap`) is
key-set/value equality, independent of that order. -/

/-- `HashMap::get`. -/
def lookupAL [DecidableEq κ] : List (κ × ν) → κ → Option ν
  | [], _ => none
  | (k1, v1) :: t, k => if k = k1 then some v1 else lookupAL t k

/-- Insert with a combining function applied when the key is present
(`f old new`); a fresh key is appended (iteration-order model of
`HashMap::insert`). -/
def insertWithAL [DecidableEq κ] (f : ν → ν → ν) :
    List (κ × ν) → κ → ν → List (κ × ν)
  | [], k, v => [(k, v)]
  | (k1, v1) :: t, k, v =>
      if k = k1 then (k1, f v1 v) :: t else (k1, v1) :: insertWithAL f t k v

/-- `HashMap::insert` (replace on collision). -/
def insertAL [DecidableEq κ] (m : List (κ × ν)) (k : κ) (v : ν) :
    List (κ × ν) :=
  insertWithAL (fun _ new => new) m k v

/-- `HashMap::remove`, returning whether the key was present. -/
def removeAL [DecidableEq κ] (m : List (κ × ν)) (k : κ) :
    List (κ × ν) × Bool :=
  (m.filter (fun e => e.1 ≠ k), (lookupAL m k).isSome)

/-- `HashMap` equality (`PartialEq`): same key-value associations in any
iteration order. -/
def mapEqAL [DecidableEq κ] [DecidableEq ν] (m1 m2 : List (κ × ν)) : Bool :=
  m1.all (fun e => lookupAL m2 e.1 == some e.2) &&
  m2.all (fun e => lookupAL m1 e.1 == some e.2)

/-- Keys of an association list. -/
def keysAL (m : List (κ × ν)) : List κ := m.map Prod.fst

/-! ## The user `State` (`src/streams/src/api/user.rs`) -/

/-- The `State` struct of `User`.  `cursor_store` is the `CursorStore`
(`Identifier → usize`); the other three stores are `HashMap`s.  Association
list order models the maps' internal iteration order. -/
structure State where
  user_id : Option Identity
  stream_address : Option Address
  author_identifier : Option Identifier
  cursor_store : List (Identifier × Nat)
  psk_store : List (Nat × Nat)
  exchange_keys : List (Identifier × Nat)
  spongos_store : List (MsgId × Nat)
  deriving DecidableEq, Repr

/-- `State::default()` / `User::new` with no identity and no PSKs. -/
def State.default : State :=
  { user_id := none, stream_address := none, author_identifier := none
    cursor_store := [], psk_store := [], exchange_keys := []
    spongos_store := [] }

/-- Modelled from the spec: `CursorStore::insert_cursor` keeps the cursor
monotonic per publisher (`cursor_store[id] = max(old, new)`; a fresh id is
inserted directly).  The `CursorStore` source is not under `src/`. -/
def insertCursor (m : List (Identifier × Nat)) (id : Identifier) (n : Nat) :
    List (Identifier × Nat) :=
  insertWithAL (fun old new => max old new) m id n

/-- `User::identifier` (via `identity().to_identifier()`). -/
def selfIdOf (s : State) : Option Identifier :=
  s.user_id.map Identity.toIdentifier

/-- `User::cursor`: the user's own cursor, when tracked. -/
def cursorOf (s : State) : Option Nat := do
  let id ← selfIdOf s
  lookupAL s.cursor_store id

/-- `User::next_cursor`: own cursor + 1, error if not a publisher. -/
def next_cursor (s : State) : Option Nat := (cursorOf s).map (· + 1)

/-- `User::should_store_cursor`: not read-only and not yet tracked. -/
def should_store_cursor (s : State) (sub : Permissioned Identifier) : Bool :=
  !sub.isReadonly && !(lookupAL s.cursor_store sub.identifier).isSome

/-- `User::remove_subscriber`: drop the id from the cursor store and the
exchange-key store. -/
def removeSubscriber (s : State) (id : Identifier) : State :=
  { s with cursor_store := (removeAL s.cursor_store id).1
           exchange_keys := (removeAL s.exchange_keys id).1 }

/-- `ANN_MESSAGE_NUM`: announcements are the first message of authors. -/
def ANN_MESSAGE_NUM : Nat := 0

/-- `SUB_MESSAGE_NUM`: subscriptions are the first message of subscribers. -/
def SUB_MESSAGE_NUM : Nat := 0

/-- `INIT_MESSAGE_NUM`: first non-reserved message number. -/
def INIT_MESSAGE_NUM : Nat := 1

/-! ## Message kinds, preparsed headers, handle path -/

namespace message_types

/-- Modelled from the spec: the `message_types` constants (module not under
`src/`); opaque distinct u8 tags. -/
def ANNOUNCEMENT : Nat := 0

/-- Modelled from the spec: see `ANNOUNCEMENT`. -/
def SUBSCRIPTION : Nat := 1

/-- Modelled from the spec: see `ANNOUNCEMENT`. -/
def UNSUBSCRIPTION : Nat := 2

/-- Modelled from the spec: see `ANNOUNCEMENT`. -/
def KEYLOAD : Nat := 3

/-- Modelled from the spec: see `ANNOUNCEMENT`. -/
def SIGNED_PACKET : Nat := 4

/-- Modelled from the spec: see `ANNOUNCEMENT`. -/
def TAGGED_PACKET : Nat := 5

end message_types

/-- Modelled from the spec: the kind-specific content a successful unwrap
would recover (announcement: author id and author exchange key;
subscription: subscriber id and subscriber exchange key; unsubscription:
subscriber id; keyload: permissioned subscriber list; packets: payloads). -/
inductive PayloadInfo where
  | ann (author : Identifier) (authorKePk : Nat)
  | subscriptionP (who : Identifier) (subKePk : Nat)
  | unsubscriptionP (who : Identifier)
  | keyloadP (subscribers : List (Permissioned Identifier))
  | packet (publicPayload : List Nat) (maskedPayload : List Nat)
  deriving DecidableEq, Repr

/-- Modelled from the spec: a `PreparsedMessage` exposes the parsed header
(publisher, sequence, kind, optional linked address).  The cryptographic
outcome of the kind-specific unwrap is symbolic: `unwrapOk` says whether
signature/MAC verification and decryption succeed, `payload` is the content
recovered on success, and `resSp` the committed spongos produced by the
unwrap. -/
structure Preparsed where
  mtype : Nat
  publisher : Identifier
  seq : Nat
  linked : Option MsgId
  payload : PayloadInfo
  unwrapOk : Bool
  resSp : Nat
  deriving DecidableEq, Repr

/-- Result of `handle_message`: a regular message or an `Orphan` wrapper
carrying the preparsed header. -/
inductive HandleOut where
  | normal
  | orphanH
  deriving DecidableEq, Repr

/-- The user-visible error kinds raised by the embedded operations. -/
inductive UErr where
  | alreadyConnected
  | noIdentity
  | noStream
  | noAuthor
  | noCursor
  | noLinkInHeader
  | unknownLink
  | conflict
  | sendFailed
  | panicMissingSpongos
  | panicNoAuthorKe
  | unknownSubscriber
  | unknownPsk
  | unwrapFailed
  | unknownMessageType
  deriving DecidableEq, Repr

/-- `User::handle_announcement`.  The publisher cursor is inserted (at
`INIT_MESSAGE_NUM`) before the unwrap is attempted; the precondition check
(`stream_address` already set) precedes the cursor update. -/
def handle_announcement (s : State) (address : Address) (pp : Preparsed) :
    State × Except UErr HandleOut :=
  if s.stream_address.isSome then (s, .error .alreadyConnected)
  else
    let s1 := { s with
      cursor_store := insertCursor s.cursor_store pp.publisher INIT_MESSAGE_NUM }
    if pp.unwrapOk then
      match pp.payload with
      | .ann author authorKePk =>
          let s2 := { s1 with
            spongos_store := insertAL s1.spongos_store address.relative pp.resSp }
          ({ s2 with
             exchange_keys := insertAL s2.exchange_keys author authorKePk
             stream_address := some address
             author_identifier := some author }, .ok .normal)
      | _ => (s1, .error .unwrapFailed)
    else (s1, .error .unwrapFailed)

/-- `User::handle_subscription`.  No cursor is stored; a missing linked
spongos yields an `Orphan`; the subscription spongos is *not* inserted into
`spongos_store`. -/
def handle_subscription (s : State) (_address : Address) (pp : Preparsed) :
    State × Except UErr HandleOut :=
  match pp.linked with
  | none => (s, .error .noLinkInHeader)
  | some l =>
    match lookupAL s.spongos_store l with
    | none => (s, .ok .orphanH)
    | some _ =>
      match s.user_id with
      | none => (s, .error .noIdentity)
      | some _ =>
        if pp.unwrapOk then
          match pp.payload with
          | .subscriptionP who subKePk =>
              ({ s with exchange_keys := insertAL s.exchange_keys who subKePk },
               .ok .normal)
          | _ => (s, .error .unwrapFailed)
        else (s, .error .unwrapFailed)

/-- `User::handle_unsubscription`.  No cursor is stored ("user is
unsubscribing"); a missing linked spongos yields an `Orphan`; on success the
resulting spongos is stored and the subscriber removed. -/
def handle_unsubscription (s : State) (address : Address) (pp : Preparsed) :
    State × Except UErr HandleOut :=
  match pp.linked with
  | none => (s, .error .noLinkInHeader)
  | some l =>
    match lookupAL s.spongos_store l with
    | none => (s, .ok .orphanH)
    | some _ =>
      if pp.unwrapOk then
        match pp.payload with
        | .unsubscriptionP who =>
            let s1 := { s with
              spongos_store := insertAL s.spongos_store address.relative pp.resSp }
            (removeSubscriber s1 who, .ok .normal)
        | _ => (s, .error .unwrapFailed)
      else (s, .error .unwrapFailed)

/-- `User::handle_keyload`.  The publisher cursor is updated (to the header
sequence) before anything else; the unwrap joins the *announcement* spongos
(`spongos_store[stream_address.relative()]`), not the header's linked
address — a missing announcement spongos is a panic (`expect`), and the
linked address is never consulted, so a keyload is never an orphan. -/
def handle_keyload (s : State) (address : Address) (pp : Preparsed) :
    State × Except UErr HandleOut :=
  let s1 := { s with
    cursor_store := insertCursor s.cursor_store pp.publisher pp.seq }
  match s1.author_identifier with
  | none => (s1, .error .noAuthor)
  | some _ =>
    match s1.stream_address with
    | none => (s1, .error .noStream)
    | some streamAddress =>
      match lookupAL s1.spongos_store streamAddress.relative with
      | none => (s1, .error .panicMissingSpongos)
      | some _ =>
        if pp.unwrapOk then
          match pp.payload with
          | .keyloadP subscribers =>
              let s2 := { s1 with
                spongos_store := insertAL s1.spongos_store address.relative pp.resSp }
              let s3 := subscribers.foldl
                (fun acc sub =>
                  if should_store_cursor acc sub then
                    { acc with cursor_store :=
                        insertCursor acc.cursor_store sub.identifier INIT_MESSAGE_NUM }
                  else acc) s2
              (s3, .ok .normal)
          | _ => (s1, .error .unwrapFailed)
        else (s1, .error .unwrapFailed)

/-- `User::handle_signed_packet`.  The publisher cursor is updated before
the unwrap attempt; a missing linked spongos yields an `Orphan` (after the
cursor update); the resulting spongos is stored on success. -/
def handle_signed_packet (s : State) (address : Address) (pp : Preparsed) :
    State × Except UErr HandleOut :=
  let s1 := { s with
    cursor_store := insertCursor s.cursor_store pp.publisher pp.seq }
  match pp.linked with
  | none => (s1, .error .noLinkInHeader)
  | some l =>
    match lookupAL s1.spongos_store l with
    | none => (s1, .ok .orphanH)
    | some _ =>
      if pp.unwrapOk then
        ({ s1 with
           spongos_store := insertAL s1.spongos_store address.relative pp.resSp },
         .ok .normal)
      else (s1, .error .unwrapFailed)

/-- `User::handle_tagged_packet`: same shape as `handle_signed_packet`. -/
def handle_tagged_packet (s : State) (address : Address) (pp : Preparsed) :
    State × Except UErr HandleOut :=
  let s1 := { s with
    cursor_store := insertCursor s.cursor_store pp.publisher pp.seq }
  match pp.linked with
  | none => (s1, .error .noLinkInHeader)
  | some l =>
    match lookupAL s1.spongos_store l with
    | none => (s1, .ok .orphanH)
    | some _ =>
      if pp.unwrapOk then
        ({ s1 with
           spongos_store := insertAL s1.spongos_store address.relative pp.resSp },
         .ok .normal)
      else (s1, .error .unwrapFailed)

/-- `User::handle_message`: dispatch on the header's message type. -/
def handle_message (s : State) (address : Address) (pp : Preparsed) :
    State × Except UErr HandleOut :=
  if pp.mtype = message_types.ANNOUNCEMENT then
    handle_announcement s address pp
  else if pp.mtype = message_types.SUBSCRIPTION then
    handle_subscription s address pp
  else if pp.mtype = message_types.UNSUBSCRIPTION then
    handle_unsubscription s address pp
  else if pp.mtype = message_types.KEYLOAD then
    handle_keyload s address pp
  else if pp.mtype = message_types.SIGNED_PACKET then
    handle_signed_packet s address pp
  else if pp.mtype = message_types.TAGGED_PACKET then
    handle_tagged_packet s address pp
  else (s, .error .unknownMessageType)

/-! ## Send path (`src/streams/src/api/user.rs`) -/

/-- The abstract transport: `recv_message(addr)` succeeds exactly when a
message occupies `addr`; `send_message` acknowledges iff `sendOk`. -/
structure Transport where
  occupied : Address → Bool
  sendOk : Bool

/-- What a successful send reports back (plus the header data the claims
are about): target address, header sequence number, message type. -/
structure Sent where
  addr : Address
  seq : Nat
  mtype : Nat
  deriving DecidableEq, Repr

/-- The committed spongos a successful wrap of a linked message produces
(symbolic but deterministic: the linked spongos continued with the message
type and committed). -/
def sentSpongos (linkedSp mtype : Nat) : Nat :=
  commitSt (absorbByte linkedSp mtype)

/-- `User::create_stream`.  Precondition checks, address generation, wrap,
the availability check via `transport.recv_message`, the send, and only
then the commit of `stream_address` / `author_identifier` / own cursor /
announcement spongos. -/
def create_stream (s : State) (t : Transport) (stream_idx : Nat) :
    State × Except UErr Sent :=
  if s.stream_address.isSome then (s, .error .alreadyConnected)
  else
    match s.user_id with
    | none => (s, .error .noIdentity)
    | some uid =>
      let selfId := uid.toIdentifier
      let base : AppAddr := { author := selfId, streamIdx := stream_idx }
      let rel : MsgId := { base := base, publisher := selfId, seq := INIT_MESSAGE_NUM }
      let addr : Address := { base := base, relative := rel }
      let sp := sentSpongos 0 message_types.ANNOUNCEMENT
      if t.occupied addr then (s, .error .conflict)
      else if t.sendOk then
        ({ s with
           stream_address := some addr
           author_identifier := some selfId
           cursor_store := insertCursor s.cursor_store selfId INIT_MESSAGE_NUM
           spongos_store := insertAL s.spongos_store rel sp },
         .ok { addr := addr, seq := ANN_MESSAGE_NUM
               mtype := message_types.ANNOUNCEMENT })
      else (s, .error .sendFailed)

/-- `User::subscribe`.  On success nothing is committed: no cursor entry and
no spongos entry (subscription messages are never stored). -/
def subscribe (s : State) (t : Transport) (link_to : MsgId) :
    State × Except UErr Sent :=
  match s.stream_address with
  | none => (s, .error .noStream)
  | some streamAddress =>
    match s.user_id with
    | none => (s, .error .noIdentity)
    | some uid =>
      let selfId := uid.toIdentifier
      let rel : MsgId := { base := streamAddress.base, publisher := selfId
                           seq := SUB_MESSAGE_NUM }
      match lookupAL s.spongos_store link_to with
      | none => (s, .error .unknownLink)
      | some _ =>
        match s.author_identifier.bind (lookupAL s.exchange_keys) with
        | none => (s, .error .panicNoAuthorKe)
        | some _ =>
          let addr : Address := { base := streamAddress.base, relative := rel }
          if t.occupied addr then (s, .error .conflict)
          else if t.sendOk then
            (s, .ok { addr := addr, seq := SUB_MESSAGE_NUM
                      mtype := message_types.SUBSCRIPTION })
          else (s, .error .sendFailed)

/-- `User::unsubscribe`.  On success the own cursor is set to `new_cursor`
and the resulting spongos stored. -/
def unsubscribe (s : State) (t : Transport) (link_to : MsgId) :
    State × Except UErr Sent :=
  match s.stream_address with
  | none => (s, .error .noStream)
  | some streamAddress =>
    match s.user_id with
    | none => (s, .error .noIdentity)
    | some uid =>
      match next_cursor s with
      | none => (s, .error .noCursor)
      | some new_cursor =>
        let selfId := uid.toIdentifier
        let rel : MsgId := { base := streamAddress.base, publisher := selfId
                             seq := new_cursor }
        match lookupAL s.spongos_store link_to with
        | none => (s, .error .unknownLink)
        | some linkedSp =>
          let addr : Address := { base := streamAddress.base, relative := rel }
          if t.occupied addr then (s, .error .conflict)
          else if t.sendOk then
            ({ s with
               cursor_store := insertCursor s.cursor_store selfId new_cursor
               spongos_store := insertAL s.spongos_store rel
                 (sentSpongos linkedSp message_types.UNSUBSCRIPTION) },
             .ok { addr := addr, seq := new_cursor
                   mtype := message_types.UNSUBSCRIPTION })
          else (s, .error .sendFailed)

/-- `User::send_keyload`.  The announcement spongos is required (`expect`),
every listed subscriber must have an exchange key and every listed PSK id a
stored PSK; on success, untracked writable subscribers are seeded at
`INIT_MESSAGE_NUM`, the own cursor set to `new_cursor`, and the keyload
spongos stored.  `link_to` only enters the wrapped header
(`with_linked_msg_address`); the content joins the announcement spongos, so
the link does not affect the state transition. -/
def send_keyload (s : State) (t : Transport) (_link_to : MsgId)
    (subscribers : List (Permissioned Identifier)) (psk_ids : List Nat) :
    State × Except UErr Sent :=
  match s.stream_address with
  | none => (s, .error .noStream)
  | some streamAddress =>
    match s.user_id with
    | none => (s, .error .noIdentity)
    | some uid =>
      match next_cursor s with
      | none => (s, .error .noCursor)
      | some new_cursor =>
        let selfId := uid.toIdentifier
        let rel : MsgId := { base := streamAddress.base, publisher := selfId
                             seq := new_cursor }
        match lookupAL s.spongos_store streamAddress.relative with
        | none => (s, .error .panicMissingSpongos)
        | some annSp =>
          if subscribers.all
              (fun sub => (lookupAL s.exchange_keys sub.identifier).isSome) then
            if psk_ids.all (fun pskid => (lookupAL s.psk_store pskid).isSome) then
              let addr : Address := { base := streamAddress.base, relative := rel }
              if t.occupied addr then (s, .error .conflict)
              else if t.sendOk then
                let s1 := subscribers.foldl
                  (fun acc sub =>
                    if should_store_cursor acc sub then
                      { acc with cursor_store := insertCursor acc.cursor_store sub.identifier INIT_MESSAGE_NUM }
                    else acc) s
                ({ s1 with
                   cursor_store := insertCursor s1.cursor_store selfId new_cursor
                   spongos_store := insertAL s1.spongos_store rel
                     (sentSpongos annSp message_types.KEYLOAD) },
                 .ok { addr := addr, seq := new_cursor
                       mtype := message_types.KEYLOAD })
              else (s, .error .sendFailed)
            else (s, .error .unknownPsk)
          else (s, .error .unknownSubscriber)

/-- `User::send_signed_packet`.  On success the own cursor is set to
`new_cursor` and the resulting spongos stored. -/
def send_signed_packet (s : State) (t : Transport) (link_to : MsgId)
    (_public_payload _masked_payload : List Nat) :
    State × Except UErr Sent :=
  match s.stream_address with
  | none => (s, .error .noStream)
  | some streamAddress =>
    match next_cursor s with
    | none => (s, .error .noCursor)
    | some new_cursor =>
      match selfIdOf s with
      | none => (s, .error .noIdentity)
      | some selfId =>
        let rel : MsgId := { base := streamAddress.base, publisher := selfId
                             seq := new_cursor }
        match lookupAL s.spongos_store link_to with
        | none => (s, .error .unknownLink)
        | some linkedSp =>
          let addr : Address := { base := streamAddress.base, relative := rel }
          if t.occupied addr then (s, .error .conflict)
          else if t.sendOk then
            ({ s with
               cursor_store := insertCursor s.cursor_store selfId new_cursor
               spongos_store := insertAL s.spongos_store rel
                 (sentSpongos linkedSp message_types.SIGNED_PACKET) },
             .ok { addr := addr, seq := new_cursor
                   mtype := message_types.SIGNED_PACKET })
          else (s, .error .sendFailed)

/-- `User::send_tagged_packet`: same shape as `send_signed_packet` (no
signature; MAC instead). -/
def send_tagged_packet (s : State) (t : Transport) (link_to : MsgId)
    (_public_payload _masked_payload : List Nat) :
    State × Except UErr Sent :=
  match s.stream_address with
  | none => (s, .error .noStream)
  | some streamAddress =>
    match next_cursor s with
    | none => (s, .error .noCursor)
    | some new_cursor =>
      match selfIdOf s with
      | none => (s, .error .noIdentity)
      | some selfId =>
        let rel : MsgId := { base := streamAddress.base, publisher := selfId
                             seq := new_cursor }
        match lookupAL s.spongos_store link_to with
        | none => (s, .error .unknownLink)
        | some linkedSp =>
          let addr : Address := { base := streamAddress.base, relative := rel }
          if t.occupied addr then (s, .error .conflict)
          else if t.sendOk then
            ({ s with
               cursor_store := insertCursor s.cursor_store selfId new_cursor
               spongos_store := insertAL s.spongos_store rel
                 (sentSpongos linkedSp message_types.TAGGED_PACKET) },
             .ok { addr := addr, seq := new_cursor
                   mtype := message_types.TAGGED_PACKET })
          else (s, .error .sendFailed)

/-! ## Store lemmas -/

theorem lookupAL_insertWithAL_self [DecidableEq κ] (f : ν → ν → ν)
    (m : List (κ × ν)) (k : κ) (v : ν) :
    lookupAL (insertWithAL f m k v) k =
      some (match lookupAL m k with | some old => f old v | none => v) := by
  induction m with
  | nil => simp [insertWithAL, lookupAL]
  | cons e t ih =>
    obtain ⟨k1, v1⟩ := e
    by_cases h : k = k1 <;> simp [insertWithAL, lookupAL, h, ih]

theorem lookupAL_insertWithAL_ne [DecidableEq κ] (f : ν → ν → ν)
    (m : List (κ × ν)) (k k' : κ) (v : ν) (h : k' ≠ k) :
    lookupAL (insertWithAL f m k v) k' = lookupAL m k' := by
  induction m with
  | nil => simp [insertWithAL, lookupAL, h]
  | cons e t ih =>
    obtain ⟨k1, v1⟩ := e
    by_cases h1 : k = k1
    · subst h1; simp [insertWithAL, lookupAL, h]
    · by_cases h2 : k' = k1 <;> simp [insertWithAL, lookupAL, h1, h2, ih]

/-- The cursor value `insert_cursor` leaves for the inserted id (the
max-update of the spec). -/
def cursorAfterInsert (m : List (Identifier × Nat)) (id : Identifier)
    (n : Nat) : Nat :=
  match lookupAL m id with
  | some old => max old n
  | none => n

theorem lookupAL_insertCursor_self (m : List (Identifier × Nat))
    (id : Identifier) (n : Nat) :
    lookupAL (insertCursor m id n) id = some (cursorAfterInsert m id n) := by
  rw [insertCursor, lookupAL_insertWithAL_self]
  cases h : lookupAL m id <;> simp [cursorAfterInsert, h]

/-- The subscriber-seeding fold of `handle_keyload`/`send_keyload` preserves
any already-tracked cursor entry (seeding only touches untracked ids). -/
theorem keyload_fold_preserves_cursor
    (subs : List (Permissioned Identifier)) (p : Identifier) (x : Nat) :
    ∀ s2 : State, lookupAL s2.cursor_store p = some x →
    lookupAL ((subs.foldl
      (fun acc sub =>
        if should_store_cursor acc sub then
          { acc with cursor_store := insertCursor acc.cursor_store sub.identifier INIT_MESSAGE_NUM }
        else acc) s2)).cursor_store p = some x := by
  induction subs with
  | nil => intro s2 h; simpa using h
  | cons sub subs ih =>
    intro s2 h
    simp only [List.foldl_cons]
    apply ih
    by_cases hs : should_store_cursor s2 sub
    · have hne : p ≠ sub.identifier := by
        intro he
        simp [should_store_cursor, ← he, h] at hs
      simp [hs, insertCursor, lookupAL_insertWithAL_ne _ _ _ _ _ hne, h]
    · simp [hs, h]

theorem handle_signed_packet_cursor (s : State) (addr : Address)
    (pp : Preparsed) :
    (handle_signed_packet s addr pp).1.cursor_store =
      insertCursor s.cursor_store pp.publisher pp.seq := by
  unfold handle_signed_packet
  cases pp.linked with
  | none => rfl
  | some l =>
    by_cases hu : pp.unwrapOk <;>
      rcases h : lookupAL s.spongos_store l with _ | sp <;>
      simp [h, hu]

theorem handle_tagged_packet_cursor (s : State) (addr : Address)
    (pp : Preparsed) :
    (handle_tagged_packet s addr pp).1.cursor_store =
      insertCursor s.cursor_store pp.publisher pp.seq := by
  unfold handle_tagged_packet
  cases pp.linked with
  | none => rfl
  | some l =>
    by_cases hu : pp.unwrapOk <;>
      rcases h : lookupAL s.spongos_store l with _ | sp <;>
      simp [h, hu]

theorem handle_keyload_cursor (s : State) (addr : Address) (pp : Preparsed) :
    lookupAL (handle_keyload s addr pp).1.cursor_store pp.publisher =
      some (cursorAfterInsert s.cursor_store pp.publisher pp.seq) := by
  unfold handle_keyload
  have hbase := lookupAL_insertCursor_self s.cursor_store pp.publisher pp.seq
  rcases ha : s.author_identifier with _ | author
  · simpa [ha] using hbase
  · rcases hsa : s.stream_address with _ | streamAddress
    · simpa [ha, hsa] using hbase
    · rcases hsp : lookupAL s.spongos_store streamAddress.relative with _ | sp
      · simpa [ha, hsa, hsp] using hbase
      · by_cases hu : pp.unwrapOk
        · rcases hp : pp.payload with hpv | hpv | hpv | subscribers | hpv <;>
            simp only [ha, hsa, hsp, hu, hp, if_true] <;>
            try simpa using hbase
          exact keyload_fold_preserves_cursor subscribers pp.publisher _ _
            (by simpa using hbase)
        · simpa [ha, hsa, hsp, hu] using hbase

theorem handle_subscription_cursor (s : State) (addr : Address)
    (pp : Preparsed) :
    (handle_subscription s addr pp).1.cursor_store = s.cursor_store := by
  unfold handle_subscription
  cases pp.linked with
  | none => rfl
  | some l =>
    rcases h : lookupAL s.spongos_store l with _ | sp
    · simp [h]
    · rcases hid : s.user_id with _ | uid
      · simp [h, hid]
      · by_cases hu : pp.unwrapOk
        · rcases hp : pp.payload with hpv | ⟨who, kepk⟩ | hpv | hpv | hpv <;>
            simp [h, hid, hu, hp]
        · simp [h, hid, hu]

theorem lookupAL_removeAL [DecidableEq κ] (m : List (κ × ν)) (k k' : κ) :
    lookupAL (removeAL m k).1 k' = if k' = k then none else lookupAL m k' := by
  induction m with
  | nil => simp [removeAL, lookupAL]
  | cons e t ih =>
    obtain ⟨k1, v1⟩ := e
    by_cases h1 : k1 = k
    · subst h1
      by_cases h2 : k' = k1 <;>
        simp only [removeAL, List.filter] at ih ⊢ <;>
        simp_all [lookupAL]
    · by_cases h2 : k' = k1 <;>
        simp only [removeAL, List.filter] at ih ⊢ <;>
        simp_all [lookupAL]

/-- `handle_unsubscription` never inserts or raises a cursor: every entry is
either unchanged or removed (the unsubscribing subscriber is dropped on
success). -/
theorem handle_unsubscription_cursor (s : State) (addr : Address)
    (pp : Preparsed) (id : Identifier) :
    lookupAL (handle_unsubscription s addr pp).1.cursor_store id =
      lookupAL s.cursor_store id ∨
    lookupAL (handle_unsubscription s addr pp).1.cursor_store id = none := by
  unfold handle_unsubscription
  cases pp.linked with
  | none => exact Or.inl rfl
  | some l =>
    rcases h : lookupAL s.spongos_store l with _ | sp
    · simp [h]
    · by_cases hu : pp.unwrapOk
      · rcases hp : pp.payload with ⟨auth, ak⟩ | ⟨w, k⟩ | who | subs | ⟨p1, p2⟩
        · simp [h, hu, hp]
        · simp [h, hu, hp]
        · by_cases hw : id = who
          · subst hw
            right
            simp [h, hu, hp, removeSubscriber, lookupAL_removeAL]
          · left
            simp [h, hu, hp, removeSubscriber, lookupAL_removeAL, hw]
        · simp [h, hu, hp]
        · simp [h, hu, hp]
      · simp [h, hu]

theorem handle_announcement_cursor (s : State) (addr : Address)
    (pp : Preparsed) (h : s.stream_address = none) :
    lookupAL (handle_announcement s addr pp).1.cursor_store pp.publisher =
      some (cursorAfterInsert s.cursor_store pp.publisher INIT_MESSAGE_NUM) := by
  unfold handle_announcement
  have hbase := lookupAL_insertCursor_self s.cursor_store pp.publisher
    INIT_MESSAGE_NUM
  by_cases hu : pp.unwrapOk
  · rcases hp : pp.payload with ⟨author, kepk⟩ | hpv | hpv | hpv | hpv <;>
      simp only [h, hu, hp, Option.isSome_none, Bool.false_eq_true,
        if_false, if_true] <;>
      simpa using hbase
  · simp only [h, hu, Option.isSome_none, Bool.false_eq_true, if_false]
    simpa using hbase

/-! ## Concrete values used by counterexamples and witnesses -/

/-- A key-pair identity for user A. -/
def uidA : Identity := .keyPair 1 21

/-- A key-pair identity for user B. -/
def uidB : Identity := .keyPair 2 22

/-- A's identifier. -/
def idA : Identifier := .ed 1

/-- B's identifier. -/
def idB : Identifier := .ed 2

/-- A concrete stream base address authored by A. -/
def appX : AppAddr := { author := idA, streamIdx := 0 }

/-- The announcement message id of `appX`. -/
def midAnn : MsgId := { base := appX, publisher := idA, seq := INIT_MESSAGE_NUM }

/-- The announcement address. -/
def addrAnn : Address := { base := appX, relative := midAnn }

/-- A message id for B's message number 5. -/
def midB5 : MsgId := { base := appX, publisher := idB, seq := 5 }

/-- The address of `midB5`. -/
def addrB5 : Address := { base := appX, relative := midB5 }

/-- A state that has seen the stream announcement (spongos stored) but has
no cursor entries yet. -/
def stateSeenAnn : State :=
  { State.default with spongos_store := [(midAnn, 42)] }

/-- **C2 counterexample.** An unsubscription message with a valid header
(publisher B, sequence 5), a linked spongos that is present, and a payload
whose unwrap fails: `handle_message` leaves B's cursor unset, although the
claim requires `cursor_store[publisher] = max(old, 5) = 5` to be set before
the unwrap attempt (the code comments "Cursor is not stored, as user is
unsubscribing"). -/
theorem c2_counterexample :
    lookupAL (handle_message stateSeenAnn addrB5
        { mtype := message_types.UNSUBSCRIPTION, publisher := idB, seq := 5
          linked := some midAnn, payload := .unsubscriptionP idB
          unwrapOk := false, resSp := 7 }).1.cursor_store idB = none ∧
    cursorAfterInsert stateSeenAnn.cursor_store idB 5 = 5 := by
  decide

/-- **C2 (amended).** Cursor tracking before the unwrap attempt holds for
keyload, signed-packet and tagged-packet messages (set to
`max(old, sequence)` whatever the unwrap outcome), and for announcements
(set to `INIT_MESSAGE_NUM`, not the header sequence, when the stream
precondition holds); subscription leaves the cursor store untouched, and
unsubscription never inserts or raises a cursor (it only ever removes the
unsubscribing subscriber). -/
theorem c2_cursor_update_amended :
    (∀ (s : State) (addr : Address) (pp : Preparsed),
      pp.mtype = message_types.KEYLOAD ∨
        pp.mtype = message_types.SIGNED_PACKET ∨
        pp.mtype = message_types.TAGGED_PACKET →
      lookupAL (handle_message s addr pp).1.cursor_store pp.publisher =
        some (cursorAfterInsert s.cursor_store pp.publisher pp.seq)) ∧
    (∀ (s : State) (addr : Address) (pp : Preparsed),
      pp.mtype = message_types.ANNOUNCEMENT → s.stream_address = none →
      lookupAL (handle_message s addr pp).1.cursor_store pp.publisher =
        some (cursorAfterInsert s.cursor_store pp.publisher INIT_MESSAGE_NUM)) ∧
    (∀ (s : State) (addr : Address) (pp : Preparsed),
      pp.mtype = message_types.SUBSCRIPTION →
      (handle_message s addr pp).1.cursor_store = s.cursor_store) ∧
    (∀ (s : State) (addr : Address) (pp : Preparsed) (id : Identifier),
      pp.mtype = message_types.UNSUBSCRIPTION →
      lookupAL (handle_message s addr pp).1.cursor_store id =
          lookupAL s.cursor_store id ∨
        lookupAL (handle_message s addr pp).1.cursor_store id = none) := by
  refine ⟨?_, ?_, ?_, ?_⟩
  · intro s addr pp hk
    rcases hk with hk | hk | hk <;>
      simp only [handle_message, hk, message_types.KEYLOAD,
        message_types.SIGNED_PACKET, message_types.TAGGED_PACKET,
        message_types.ANNOUNCEMENT, message_types.SUBSCRIPTION,
        message_types.UNSUBSCRIPTION] <;>
      norm_num
    · exact handle_keyload_cursor s addr pp
    · rw [handle_signed_packet_cursor]
      exact lookupAL_insertCursor_self _ _ _
    · rw [handle_tagged_packet_cursor]
      exact lookupAL_insertCursor_self _ _ _
  · intro s addr pp hk hs
    simp only [handle_message, hk, message_types.ANNOUNCEMENT, if_pos rfl]
    exact handle_announcement_cursor s addr pp hs
  · intro s addr pp hk
    simp only [handle_message, hk, message_types.SUBSCRIPTION,
      message_types.ANNOUNCEMENT]
    norm_num
    exact handle_subscription_cursor s addr pp
  · intro s addr pp id hk
    simp only [handle_message, hk, message_types.UNSUBSCRIPTION,
      message_types.ANNOUNCEMENT, message_types.SUBSCRIPTION]
    norm_num
    exact handle_unsubscription_cursor s addr pp id

/-- A signed packet from B (sequence 2) whose payload fails to unwrap. -/
def ppSignedB : Preparsed :=
  { mtype := message_types.SIGNED_PACKET, publisher := idB, seq := 2
    linked := some midAnn, payload := .packet [1] [2]
    unwrapOk := false, resSp := 9 }

/-- A's stream announcement message. -/
def ppAnnA : Preparsed :=
  { mtype := message_types.ANNOUNCEMENT, publisher := idA
    seq := ANN_MESSAGE_NUM, linked := none, payload := .ann idA 11
    unwrapOk := true, resSp := 8 }

/-- B's subscription message. -/
def ppSubB : Preparsed :=
  { mtype := message_types.SUBSCRIPTION, publisher := idB
    seq := SUB_MESSAGE_NUM, linked := some midAnn
    payload := .subscriptionP idB 12, unwrapOk := true, resSp := 10 }

/-- B's unsubscription message (sequence 5), unwrapping successfully. -/
def ppUnsubB : Preparsed :=
  { mtype := message_types.UNSUBSCRIPTION, publisher := idB, seq := 5
    linked := some midAnn, payload := .unsubscriptionP idB
    unwrapOk := true, resSp := 7 }

theorem c2_cursor_update_amended_witness :
    lookupAL (handle_message stateSeenAnn addrB5 ppSignedB).1.cursor_store
        idB = some 2 ∧
    lookupAL (handle_message State.default addrAnn ppAnnA).1.cursor_store
        idA = some 1 ∧
    (handle_message stateSeenAnn addrB5 ppSubB).1.cursor_store =
        stateSeenAnn.cursor_store ∧
    (lookupAL (handle_message stateSeenAnn addrB5 ppUnsubB).1.cursor_store
          idA = lookupAL stateSeenAnn.cursor_store idA ∨
      lookupAL (handle_message stateSeenAnn addrB5 ppUnsubB).1.cursor_store
          idA = none) := by
  refine ⟨?_, ?_, ?_, ?_⟩
  · exact (c2_cursor_update_amended.1 stateSeenAnn addrB5 ppSignedB
      (Or.inr (Or.inl rfl))).trans (by decide)
  · exact (c2_cursor_update_amended.2.1 State.default addrAnn ppAnnA rfl
      rfl).trans (by decide)
  · exact c2_cursor_update_amended.2.2.1 stateSeenAnn addrB5 ppSubB rfl
  · exact c2_cursor_update_amended.2.2.2 stateSeenAnn addrB5 ppUnsubB idA rfl

/-! ## Send-path atomicity lemmas (for C3) -/

theorem create_stream_atomic (s : State) (t : Transport) (idx : Nat) :
    ((create_stream s t idx).2.isOk = false → (create_stream s t idx).1 = s) ∧
    (∀ r, (create_stream s t idx).2 = .ok r → t.occupied r.addr = false) := by
  unfold create_stream
  rcases hsa : s.stream_address with _ | sa
  · rcases hu : s.user_id with _ | uid
    · simp [hsa, hu]
    · simp only [hsa, hu, Option.isSome_none, Bool.false_eq_true, if_false]
      split_ifs with ho hs
      · simp
      · refine ⟨fun h => by simp [Except.isOk, Except.toBool] at h, ?_⟩
        rintro r hr
        cases hr
        simpa using ho
      · simp
  · simp [hsa]

theorem subscribe_atomic (s : State) (t : Transport) (link_to : MsgId) :
    ((subscribe s t link_to).2.isOk = false → (subscribe s t link_to).1 = s) ∧
    (∀ r, (subscribe s t link_to).2 = .ok r → t.occupied r.addr = false) := by
  unfold subscribe
  rcases hsa : s.stream_address with _ | sa
  · simp [hsa]
  · rcases hu : s.user_id with _ | uid
    · simp [hsa, hu]
    · rcases hl : lookupAL s.spongos_store link_to with _ | sp
      · simp [hsa, hu, hl]
      · rcases hak : s.author_identifier.bind (lookupAL s.exchange_keys)
          with _ | ak
        · simp [hsa, hu, hl, hak]
        · simp only [hsa, hu, hl, hak]
          split_ifs with ho hs
          · simp
          · refine ⟨fun h => by simp [Except.isOk, Except.toBool] at h, ?_⟩
            rintro r hr
            cases hr
            simpa using ho
          · simp

theorem unsubscribe_atomic (s : State) (t : Transport) (link_to : MsgId) :
    ((unsubscribe s t link_to).2.isOk = false →
      (unsubscribe s t link_to).1 = s) ∧
    (∀ r, (unsubscribe s t link_to).2 = .ok r → t.occupied r.addr = false) := by
  unfold unsubscribe
  rcases hsa : s.stream_address with _ | sa
  · simp [hsa]
  · rcases hu : s.user_id with _ | uid
    · simp [hsa, hu]
    · rcases hnc : next_cursor s with _ | nc
      · simp [hsa, hu, hnc]
      · rcases hl : lookupAL s.spongos_store link_to with _ | sp
        · simp [hsa, hu, hnc, hl]
        · simp only [hsa, hu, hnc, hl]
          split_ifs with ho hs
          · simp
          · refine ⟨fun h => by simp [Except.isOk, Except.toBool] at h, ?_⟩
            rintro r hr
            cases hr
            simpa using ho
          · simp

theorem send_keyload_atomic (s : State) (t : Transport) (link_to : MsgId)
    (subscribers : List (Permissioned Identifier)) (psk_ids : List Nat) :
    ((send_keyload s t link_to subscribers psk_ids).2.isOk = false →
      (send_keyload s t link_to subscribers psk_ids).1 = s) ∧
    (∀ r, (send_keyload s t link_to subscribers psk_ids).2 = .ok r →
      t.occupied r.addr = false) := by
  unfold send_keyload
  rcases hsa : s.stream_address with _ | sa
  · simp [hsa]
  · rcases hu : s.user_id with _ | uid
    · simp [hsa, hu]
    · rcases hnc : next_cursor s with _ | nc
      · simp [hsa, hu, hnc]
      · rcases hl : lookupAL s.spongos_store sa.relative with _ | annSp
        · simp [hsa, hu, hnc, hl]
        · simp only [hsa, hu, hnc, hl]
          split_ifs with h1 h2 ho hs
          · simp
          · refine ⟨fun h => by simp [Except.isOk, Except.toBool] at h, ?_⟩
            rintro r hr
            cases hr
            simpa using ho
          · simp
          · simp
          · simp

theorem send_signed_packet_atomic (s : State) (t : Transport) (link_to : MsgId)
    (pubp mskp : List Nat) :
    ((send_signed_packet s t link_to pubp mskp).2.isOk = false →
      (send_signed_packet s t link_to pubp mskp).1 = s) ∧
    (∀ r, (send_signed_packet s t link_to pubp mskp).2 = .ok r →
      t.occupied r.addr = false) := by
  unfold send_signed_packet
  rcases hsa : s.stream_address with _ | sa
  · simp [hsa]
  · rcases hnc : next_cursor s with _ | nc
    · simp [hsa, hnc]
    · rcases hid : selfIdOf s with _ | selfId
      · simp [hsa, hnc, hid]
      · rcases hl : lookupAL s.spongos_store link_to with _ | sp
        · simp [hsa, hnc, hid, hl]
        · simp only [hsa, hnc, hid, hl]
          split_ifs with ho hs
          · simp
          · refine ⟨fun h => by simp [Except.isOk, Except.toBool] at h, ?_⟩
            rintro r hr
            cases hr
            simpa using ho
          · simp

theorem send_tagged_packet_atomic (s : State) (t : Transport) (link_to : MsgId)
    (pubp mskp : List Nat) :
    ((send_tagged_packet s t link_to pubp mskp).2.isOk = false →
      (send_tagged_packet s t link_to pubp mskp).1 = s) ∧
    (∀ r, (send_tagged_packet s t link_to pubp mskp).2 = .ok r →
      t.occupied r.addr = false) := by
  unfold send_tagged_packet
  rcases hsa : s.stream_address with _ | sa
  · simp [hsa]
  · rcases hnc : next_cursor s with _ | nc
    · simp [hsa, hnc]
    · rcases hid : selfIdOf s with _ | selfId
      · simp [hsa, hnc, hid]
      · rcases hl : lookupAL s.spongos_store link_to with _ | sp
        · simp [hsa, hnc, hid, hl]
        · simp only [hsa, hnc, hid, hl]
          split_ifs with ho hs
          · simp
          · refine ⟨fun h => by simp [Except.isOk, Except.toBool] at h, ?_⟩
            rintro r hr
            cases hr
            simpa using ho
          · simp

/-- **C3.** For every send operation, the transport availability check gates
every successful send (a success implies no message occupied the target
address), and on any error the local state is returned unchanged (state is
committed only after the transport acknowledges). -/
theorem c3_send_checks_and_atomicity :
    (∀ (s : State) (t : Transport) (idx : Nat),
      ((create_stream s t idx).2.isOk = false →
        (create_stream s t idx).1 = s) ∧
      (∀ r, (create_stream s t idx).2 = .ok r →
        t.occupied r.addr = false)) ∧
    (∀ (s : State) (t : Transport) (link_to : MsgId),
      ((subscribe s t link_to).2.isOk = false →
        (subscribe s t link_to).1 = s) ∧
      (∀ r, (subscribe s t link_to).2 = .ok r →
        t.occupied r.addr = false)) ∧
    (∀ (s : State) (t : Transport) (link_to : MsgId),
      ((unsubscribe s t link_to).2.isOk = false →
        (unsubscribe s t link_to).1 = s) ∧
      (∀ r, (unsubscribe s t link_to).2 = .ok r →
        t.occupied r.addr = false)) ∧
    (∀ (s : State) (t : Transport) (link_to : MsgId)
        (subscribers : List (Permissioned Identifier)) (psk_ids : List Nat),
      ((send_keyload s t link_to subscribers psk_ids).2.isOk = false →
        (send_keyload s t link_to subscribers psk_ids).1 = s) ∧
      (∀ r, (send_keyload s t link_to subscribers psk_ids).2 = .ok r →
        t.occupied r.addr = false)) ∧
    (∀ (s : State) (t : Transport) (link_to : MsgId) (pubp mskp : List Nat),
      ((send_signed_packet s t link_to pubp mskp).2.isOk = false →
        (send_signed_packet s t link_to pubp mskp).1 = s) ∧
      (∀ r, (send_signed_packet s t link_to pubp mskp).2 = .ok r →
        t.occupied r.addr = false)) ∧
    (∀ (s : State) (t : Transport) (link_to : MsgId) (pubp mskp : List Nat),
      ((send_tagged_packet s t link_to pubp mskp).2.isOk = false →
        (send_tagged_packet s t link_to pubp mskp).1 = s) ∧
      (∀ r, (send_tagged_packet s t link_to pubp mskp).2 = .ok r →
        t.occupied r.addr = false)) :=
  ⟨create_stream_atomic, subscribe_atomic, unsubscribe_atomic,
    send_keyload_atomic, send_signed_packet_atomic, send_tagged_packet_atomic⟩

/-- A transport where every address is already occupied. -/
def tOcc : Transport := { occupied := fun _ => true, sendOk := true }

/-- A transport with all addresses free and successful sends. -/
def tFree : Transport := { occupied := fun _ => false, sendOk := true }

/-- A fresh user state holding A's identity. -/
def stateA0 : State := { State.default with user_id := some uidA }

/-- Author A connected to its own stream (cursor seeded at 1). -/
def stateReadyA : State :=
  { user_id := some uidA, stream_address := some addrAnn
    author_identifier := some idA, cursor_store := [(idA, 1)]
    psk_store := [], exchange_keys := [(idA, 11), (idB, 22)]
    spongos_store := [(midAnn, 42)] }

/-- Subscriber B connected to A's stream with a tracked cursor. -/
def stateReadyB : State :=
  { user_id := some uidB, stream_address := some addrAnn
    author_identifier := some idA, cursor_store := [(idB, 1)]
    psk_store := [], exchange_keys := [(idA, 11), (idB, 22)]
    spongos_store := [(midAnn, 42)] }

/-- The send response of `create_stream stateA0 tFree 0`. -/
def rCreateA : Sent :=
  { addr := addrAnn, seq := ANN_MESSAGE_NUM
    mtype := message_types.ANNOUNCEMENT }

/-- B's subscription message id. -/
def midSubB : MsgId := { base := appX, publisher := idB, seq := SUB_MESSAGE_NUM }

/-- The send response of `subscribe stateReadyB tFree midAnn`. -/
def rSubB : Sent :=
  { addr := { base := appX, relative := midSubB }, seq := SUB_MESSAGE_NUM
    mtype := message_types.SUBSCRIPTION }

/-- B's message id number 2. -/
def midB2 : MsgId := { base := appX, publisher := idB, seq := 2 }

/-- The address of `midB2`. -/
def addrB2 : Address := { base := appX, relative := midB2 }

/-- A's message id number 2. -/
def midA2 : MsgId := { base := appX, publisher := idA, seq := 2 }

/-- The address of `midA2`. -/
def addrA2 : Address := { base := appX, relative := midA2 }

theorem c3_send_checks_and_atomicity_witness :
    (create_stream stateA0 tOcc 0).1 = stateA0 ∧
    tFree.occupied rCreateA.addr = false ∧
    (subscribe stateReadyB tOcc midAnn).1 = stateReadyB ∧
    tFree.occupied rSubB.addr = false ∧
    (unsubscribe stateReadyB tOcc midAnn).1 = stateReadyB ∧
    tFree.occupied addrB2 = false ∧
    (send_keyload stateReadyA tOcc midAnn [.readWrite idB 0] []).1 =
      stateReadyA ∧
    tFree.occupied addrA2 = false ∧
    (send_signed_packet stateReadyB tOcc midAnn [1] [2]).1 = stateReadyB ∧
    (send_tagged_packet stateReadyB tOcc midAnn [1] [2]).1 = stateReadyB := by
  refine ⟨(c3_send_checks_and_atomicity.1 stateA0 tOcc 0).1 (by decide),
    (c3_send_checks_and_atomicity.1 stateA0 tFree 0).2 rCreateA (by rfl),
    (c3_send_checks_and_atomicity.2.1 stateReadyB tOcc midAnn).1 (by decide),
    (c3_send_checks_and_atomicity.2.1 stateReadyB tFree midAnn).2 rSubB
      (by rfl),
    (c3_send_checks_and_atomicity.2.2.1 stateReadyB tOcc midAnn).1 (by decide),
    (c3_send_checks_and_atomicity.2.2.1 stateReadyB tFree midAnn).2
      { addr := addrB2, seq := 2, mtype := message_types.UNSUBSCRIPTION }
      (by rfl),
    (c3_send_checks_and_atomicity.2.2.2.1 stateReadyA tOcc midAnn
      [.readWrite idB 0] []).1 (by decide),
    (c3_send_checks_and_atomicity.2.2.2.1 stateReadyA tFree midAnn
      [.readWrite idB 0] []).2
      { addr := addrA2, seq := 2, mtype := message_types.KEYLOAD } (by rfl),
    (c3_send_checks_and_atomicity.2.2.2.2.1 stateReadyB tOcc midAnn
      [1] [2]).1 (by decide),
    (c3_send_checks_and_atomicity.2.2.2.2.2 stateReadyB tOcc midAnn
      [1] [2]).1 (by decide)⟩

/-! ## Spongos-store insertion lemmas (for C4) -/

theorem lookupAL_insertAL_self [DecidableEq κ] (m : List (κ × ν)) (k : κ)
    (v : ν) : lookupAL (insertAL m k v) k = some v := by
  rw [insertAL, lookupAL_insertWithAL_self]
  cases h : lookupAL m k <;> rfl

/-- `subscribe` commits nothing at all on any path. -/
theorem subscribe_state (s : State) (t : Transport) (link_to : MsgId) :
    (subscribe s t link_to).1 = s := by
  unfold subscribe
  rcases hsa : s.stream_address with _ | sa
  · rfl
  · rcases hu : s.user_id with _ | uid
    · rfl
    · rcases hl : lookupAL s.spongos_store link_to with _ | sp
      · rfl
      · rcases hak : s.author_identifier.bind (lookupAL s.exchange_keys)
          with _ | ak
        · rfl
        · simp only []
          split_ifs <;> rfl

/-- `handle_subscription` never touches the spongos store. -/
theorem handle_subscription_spongos (s : State) (addr : Address)
    (pp : Preparsed) :
    (handle_subscription s addr pp).1.spongos_store = s.spongos_store := by
  unfold handle_subscription
  cases pp.linked with
  | none => rfl
  | some l =>
    rcases h : lookupAL s.spongos_store l with _ | sp
    · simp [h]
    · rcases hid : s.user_id with _ | uid
      · simp [h, hid]
      · by_cases hu : pp.unwrapOk
        · rcases hp : pp.payload with hpv | ⟨who, kepk⟩ | hpv | hpv | hpv <;>
            simp [h, hid, hu, hp]
        · simp [h, hid, hu]

/-- The subscriber-seeding fold only touches the cursor store. -/
theorem keyload_fold_spongos (subs : List (Permissioned Identifier)) :
    ∀ s2 : State,
    ((subs.foldl
      (fun acc sub =>
        if should_store_cursor acc sub then
          { acc with cursor_store := insertCursor acc.cursor_store sub.identifier INIT_MESSAGE_NUM }
        else acc) s2)).spongos_store = s2.spongos_store := by
  induction subs with
  | nil => intro s2; rfl
  | cons sub subs ih =>
    intro s2
    simp only [List.foldl_cons]
    rw [ih]
    by_cases hs : should_store_cursor s2 sub <;> simp [hs]

theorem create_stream_inserts (s : State) (t : Transport) (idx : Nat) :
    ∀ r, (create_stream s t idx).2 = .ok r →
      lookupAL (create_stream s t idx).1.spongos_store r.addr.relative =
        some (sentSpongos 0 message_types.ANNOUNCEMENT) := by
  unfold create_stream
  rcases hsa : s.stream_address with _ | sa
  · rcases hu : s.user_id with _ | uid
    · simp
    · simp only [Option.isSome_none, Bool.false_eq_true, if_false]
      split_ifs with ho hs
      · simp
      · rintro r hr
        cases hr
        exact lookupAL_insertAL_self _ _ _
      · simp
  · simp

theorem unsubscribe_inserts (s : State) (t : Transport) (link_to : MsgId) :
    ∀ r, (unsubscribe s t link_to).2 = .ok r →
      (lookupAL (unsubscribe s t link_to).1.spongos_store
        r.addr.relative).isSome = true := by
  unfold unsubscribe
  rcases hsa : s.stream_address with _ | sa
  · simp
  · rcases hu : s.user_id with _ | uid
    · simp
    · rcases hnc : next_cursor s with _ | nc
      · simp
      · rcases hl : lookupAL s.spongos_store link_to with _ | sp
        · simp
        · simp only []
          split_ifs with ho hs
          · simp
          · rintro r hr
            cases hr
            simp [lookupAL_insertAL_self]
          · simp

theorem send_keyload_inserts (s : State) (t : Transport) (link_to : MsgId)
    (subscribers : List (Permissioned Identifier)) (psk_ids : List Nat) :
    ∀ r, (send_keyload s t link_to subscribers psk_ids).2 = .ok r →
      (lookupAL (send_keyload s t link_to subscribers psk_ids).1.spongos_store
        r.addr.relative).isSome = true := by
  unfold send_keyload
  rcases hsa : s.stream_address with _ | sa
  · simp
  · rcases hu : s.user_id with _ | uid
    · simp
    · rcases hnc : next_cursor s with _ | nc
      · simp
      · rcases hl : lookupAL s.spongos_store sa.relative with _ | annSp
        · simp [hl]
        · simp only [hl]
          split_ifs with h1 h2 ho hs
          · simp
          · rintro r hr
            cases hr
            simp [lookupAL_insertAL_self]
          · simp
          · simp
          · simp

theorem send_signed_packet_inserts (s : State) (t : Transport)
    (link_to : MsgId) (pubp mskp : List Nat) :
    ∀ r, (send_signed_packet s t link_to pubp mskp).2 = .ok r →
      (lookupAL (send_signed_packet s t link_to pubp mskp).1.spongos_store
        r.addr.relative).isSome = true := by
  unfold send_signed_packet
  rcases hsa : s.stream_address with _ | sa
  · simp
  · rcases hnc : next_cursor s with _ | nc
    · simp
    · rcases hid : selfIdOf s with _ | selfId
      · simp
      · rcases hl : lookupAL s.spongos_store link_to with _ | sp
        · simp
        · simp only []
          split_ifs with ho hs
          · simp
          · rintro r hr
            cases hr
            simp [lookupAL_insertAL_self]
          · simp

theorem send_tagged_packet_inserts (s : State) (t : Transport)
    (link_to : MsgId) (pubp mskp : List Nat) :
    ∀ r, (send_tagged_packet s t link_to pubp mskp).2 = .ok r →
      (lookupAL (send_tagged_packet s t link_to pubp mskp).1.spongos_store
        r.addr.relative).isSome = true := by
  unfold send_tagged_packet
  rcases hsa : s.stream_address with _ | sa
  · simp
  · rcases hnc : next_cursor s with _ | nc
    · simp
    · rcases hid : selfIdOf s with _ | selfId
      · simp
      · rcases hl : lookupAL s.spongos_store link_to with _ | sp
        · simp
        · simp only []
          split_ifs with ho hs
          · simp
          · rintro r hr
            cases hr
            simp [lookupAL_insertAL_self]
          · simp

theorem handle_announcement_inserts (s : State) (addr : Address)
    (pp : Preparsed) :
    (handle_announcement s addr pp).2 = .ok .normal →
      (lookupAL (handle_announcement s addr pp).1.spongos_store
        addr.relative).isSome = true := by
  unfold handle_announcement
  by_cases hsa : s.stream_address.isSome
  · simp [hsa]
  · by_cases hu : pp.unwrapOk
    · rcases hp : pp.payload with ⟨author, kepk⟩ | hpv | hpv | hpv | hpv <;>
        simp [hsa, hu, hp, lookupAL_insertAL_self]
    · simp [hsa, hu]

theorem handle_unsubscription_inserts (s : State) (addr : Address)
    (pp : Preparsed) :
    (handle_unsubscription s addr pp).2 = .ok .normal →
      (lookupAL (handle_unsubscription s addr pp).1.spongos_store
        addr.relative).isSome = true := by
  unfold handle_unsubscription
  cases pp.linked with
  | none => simp
  | some l =>
    rcases h : lookupAL s.spongos_store l with _ | sp
    · simp [h]
    · by_cases hu : pp.unwrapOk
      · rcases hp : pp.payload with hpv | hpv | w | hpv | hpv <;>
          simp [h, hu, hp, removeSubscriber, lookupAL_insertAL_self]
      · simp [h, hu]

theorem handle_keyload_inserts (s : State) (addr : Address) (pp : Preparsed) :
    (handle_keyload s addr pp).2 = .ok .normal →
      (lookupAL (handle_keyload s addr pp).1.spongos_store
        addr.relative).isSome = true := by
  unfold handle_keyload
  rcases ha : s.author_identifier with _ | author
  · simp [ha]
  · rcases hsa : s.stream_address with _ | streamAddress
    · simp [ha, hsa]
    · rcases hsp : lookupAL s.spongos_store streamAddress.relative with _ | sp
      · simp [ha, hsa, hsp]
      · by_cases hu : pp.unwrapOk
        · rcases hp : pp.payload with hpv | hpv | hpv | subscribers | hpv <;>
            simp only [ha, hsa, hsp, hu, hp, if_true] <;>
            try simp
          rw [keyload_fold_spongos]
          simp [lookupAL_insertAL_self]
        · simp [ha, hsa, hsp, hu]

theorem handle_signed_packet_inserts (s : State) (addr : Address)
    (pp : Preparsed) :
    (handle_signed_packet s addr pp).2 = .ok .normal →
      (lookupAL (handle_signed_packet s addr pp).1.spongos_store
        addr.relative).isSome = true := by
  unfold handle_signed_packet
  cases pp.linked with
  | none => simp
  | some l =>
    rcases h : lookupAL s.spongos_store l with _ | sp
    · simp [h]
    · by_cases hu : pp.unwrapOk <;> simp [h, hu, lookupAL_insertAL_self]

theorem handle_tagged_packet_inserts (s : State) (addr : Address)
    (pp : Preparsed) :
    (handle_tagged_packet s addr pp).2 = .ok .normal →
      (lookupAL (handle_tagged_packet s addr pp).1.spongos_store
        addr.relative).isSome = true := by
  unfold handle_tagged_packet
  cases pp.linked with
  | none => simp
  | some l =>
    rcases h : lookupAL s.spongos_store l with _ | sp
    · simp [h]
    · by_cases hu : pp.unwrapOk <;> simp [h, hu, lookupAL_insertAL_self]

/-- **C4.** Subscription messages never reach the spongos store: `subscribe`
commits nothing (the whole state is unchanged, in particular no spongos
entry for the subscription address), and `handle_subscription` leaves
`spongos_store` untouched.  Every other kind, when sent or handled
successfully, inserts its resulting spongos at the message's relative
address. -/
theorem c4_subscription_not_in_spongos_store :
    (∀ (s : State) (t : Transport) (l : MsgId), (subscribe s t l).1 = s) ∧
    (∀ (s : State) (a : Address) (pp : Preparsed),
      (handle_subscription s a pp).1.spongos_store = s.spongos_store) ∧
    (∀ (s : State) (t : Transport) (idx : Nat) (r : Sent),
      (create_stream s t idx).2 = .ok r →
      (lookupAL (create_stream s t idx).1.spongos_store
        r.addr.relative).isSome = true) ∧
    (∀ (s : State) (t : Transport) (l : MsgId) (r : Sent),
      (unsubscribe s t l).2 = .ok r →
      (lookupAL (unsubscribe s t l).1.spongos_store
        r.addr.relative).isSome = true) ∧
    (∀ (s : State) (t : Transport) (l : MsgId)
        (subscribers : List (Permissioned Identifier)) (psk_ids : List Nat)
        (r : Sent),
      (send_keyload s t l subscribers psk_ids).2 = .ok r →
      (lookupAL (send_keyload s t l subscribers psk_ids).1.spongos_store
        r.addr.relative).isSome = true) ∧
    (∀ (s : State) (t : Transport) (l : MsgId) (p m : List Nat) (r : Sent),
      (send_signed_packet s t l p m).2 = .ok r →
      (lookupAL (send_signed_packet s t l p m).1.spongos_store
        r.addr.relative).isSome = true) ∧
    (∀ (s : State) (t : Transport) (l : MsgId) (p m : List Nat) (r : Sent),
      (send_tagged_packet s t l p m).2 = .ok r →
      (lookupAL (send_tagged_packet s t l p m).1.spongos_store
        r.addr.relative).isSome = true) ∧
    (∀ (s : State) (a : Address) (pp : Preparsed),
      (handle_announcement s a pp).2 = .ok .normal →
      (lookupAL (handle_announcement s a pp).1.spongos_store
        a.relative).isSome = true) ∧
    (∀ (s : State) (a : Address) (pp : Preparsed),
      (handle_unsubscription s a pp).2 = .ok .normal →
      (lookupAL (handle_unsubscription s a pp).1.spongos_store
        a.relative).isSome = true) ∧
    (∀ (s : State) (a : Address) (pp : Preparsed),
      (handle_keyload s a pp).2 = .ok .normal →
      (lookupAL (handle_keyload s a pp).1.spongos_store
        a.relative).isSome = true) ∧
    (∀ (s : State) (a : Address) (pp : Preparsed),
      (handle_signed_packet s a pp).2 = .ok .normal →
      (lookupAL (handle_signed_packet s a pp).1.spongos_store
        a.relative).isSome = true) ∧
    (∀ (s : State) (a : Address) (pp : Preparsed),
      (handle_tagged_packet s a pp).2 = .ok .normal →
      (lookupAL (handle_tagged_packet s a pp).1.spongos_store
        a.relative).isSome = true) := by
  refine ⟨subscribe_state, handle_subscription_spongos, ?_, ?_, ?_, ?_, ?_,
    handle_announcement_inserts, handle_unsubscription_inserts,
    handle_keyload_inserts, handle_signed_packet_inserts,
    handle_tagged_packet_inserts⟩
  · intro s t idx r hr
    rw [create_stream_inserts s t idx r hr]
    rfl
  · exact fun s t l => unsubscribe_inserts s t l
  · exact fun s t l subscribers psk_ids =>
      send_keyload_inserts s t l subscribers psk_ids
  · exact fun s t l p m => send_signed_packet_inserts s t l p m
  · exact fun s t l p m => send_tagged_packet_inserts s t l p m

/-- B's signed packet (sequence 2) that unwraps successfully. -/
def ppSignedOkB : Preparsed :=
  { mtype := message_types.SIGNED_PACKET, publisher := idB, seq := 2
    linked := some midAnn, payload := .packet [1] [2]
    unwrapOk := true, resSp := 9 }

theorem c4_subscription_not_in_spongos_store_witness :
    (subscribe stateReadyB tFree midAnn).1 = stateReadyB ∧
    (handle_subscription stateSeenAnn addrB5 ppSubB).1.spongos_store =
      stateSeenAnn.spongos_store ∧
    (lookupAL (create_stream stateA0 tFree 0).1.spongos_store
      rCreateA.addr.relative).isSome = true ∧
    (lookupAL (send_signed_packet stateReadyB tFree midAnn [1] [2]).1.spongos_store
      addrB2.relative).isSome = true ∧
    (lookupAL (handle_signed_packet stateSeenAnn addrB5 ppSignedOkB).1.spongos_store
      addrB5.relative).isSome = true := by
  refine ⟨c4_subscription_not_in_spongos_store.1 stateReadyB tFree midAnn,
    c4_subscription_not_in_spongos_store.2.1 stateSeenAnn addrB5 ppSubB,
    c4_subscription_not_in_spongos_store.2.2.1 stateA0 tFree 0 rCreateA
      (by rfl),
    c4_subscription_not_in_spongos_store.2.2.2.2.2.1 stateReadyB tFree midAnn
      [1] [2] { addr := addrB2, seq := 2, mtype := message_types.SIGNED_PACKET }
      (by rfl),
    c4_subscription_not_in_spongos_store.2.2.2.2.2.2.2.2.2.2.1 stateSeenAnn
      addrB5 ppSignedOkB (by rfl)⟩

/-! ## Orphan lemmas (for C6) -/

theorem handle_subscription_orphan (s : State) (a : Address) (pp : Preparsed)
    (L : MsgId) (hl : pp.linked = some L)
    (habs : lookupAL s.spongos_store L = none) :
    handle_subscription s a pp = (s, .ok .orphanH) := by
  unfold handle_subscription
  simp [hl, habs]

theorem handle_unsubscription_orphan (s : State) (a : Address)
    (pp : Preparsed) (L : MsgId) (hl : pp.linked = some L)
    (habs : lookupAL s.spongos_store L = none) :
    handle_unsubscription s a pp = (s, .ok .orphanH) := by
  unfold handle_unsubscription
  simp [hl, habs]

theorem handle_signed_packet_orphan (s : State) (a : Address)
    (pp : Preparsed) (L : MsgId) (hl : pp.linked = some L)
    (habs : lookupAL s.spongos_store L = none) :
    handle_signed_packet s a pp =
      ({ s with cursor_store := insertCursor s.cursor_store pp.publisher pp.seq },
       .ok .orphanH) := by
  unfold handle_signed_packet
  simp [hl, habs]

theorem handle_tagged_packet_orphan (s : State) (a : Address)
    (pp : Preparsed) (L : MsgId) (hl : pp.linked = some L)
    (habs : lookupAL s.spongos_store L = none) :
    handle_tagged_packet s a pp =
      ({ s with cursor_store := insertCursor s.cursor_store pp.publisher pp.seq },
       .ok .orphanH) := by
  unfold handle_tagged_packet
  simp [hl, habs]

/-- `handle_keyload` never produces an orphan: it does not consult the
header's linked address at all. -/
theorem handle_keyload_no_orphan (s : State) (a : Address) (pp : Preparsed) :
    (handle_keyload s a pp).2 ≠ .ok .orphanH := by
  unfold handle_keyload
  rcases ha : s.author_identifier with _ | author
  · simp [ha]
  · rcases hsa : s.stream_address with _ | streamAddress
    · simp [ha, hsa]
    · rcases hsp : lookupAL s.spongos_store streamAddress.relative with _ | sp
      · simp [ha, hsa, hsp]
      · by_cases hu : pp.unwrapOk
        · rcases hp : pp.payload with hpv | hpv | hpv | subscribers | hpv <;>
            simp [ha, hsa, hsp, hu, hp]
        · simp [ha, hsa, hsp, hu]

/-- Decidable equality of `Except` results (needed to evaluate handler
outcomes on concrete inputs). -/
instance {E A : Type} [DecidableEq E] [DecidableEq A] :
    DecidableEq (Except E A) := fun x y =>
  match x, y with
  | .ok a, .ok b =>
      if h : a = b then .isTrue (by rw [h])
      else .isFalse (fun he => h (Except.ok.inj he))
  | .error a, .error b =>
      if h : a = b then .isTrue (by rw [h])
      else .isFalse (fun he => h (Except.error.inj he))
  | .ok a, .error b => .isFalse (fun he => Except.noConfusion he)
  | .error a, .ok b => .isFalse (fun he => Except.noConfusion he)

/-- A's message id number 3 and its address. -/
def midA3 : MsgId := { base := appX, publisher := idA, seq := 3 }

/-- The address of `midA3`. -/
def addrA3 : Address := { base := appX, relative := midA3 }

/-- A state that has handled the announcement: stream address, author and
announcement spongos are set. -/
def stateSeenAnnFull : State :=
  { State.default with
      stream_address := some addrAnn
      author_identifier := some idA
      spongos_store := [(midAnn, 42)] }

/-- A keyload message whose header links to `midA2`, which is absent from
the spongos store. -/
def ppKeyloadOrphan : Preparsed :=
  { mtype := message_types.KEYLOAD, publisher := idA, seq := 3
    linked := some midA2, payload := .keyloadP []
    unwrapOk := true, resSp := 13 }

/-- **C6 counterexample.** A keyload whose linked message's spongos is
absent is *not* returned as an Orphan: `handle_keyload` ignores the header
link and unwraps against the stored announcement spongos, returning a
normal message and inserting into `spongos_store`. -/
theorem c6_counterexample :
    lookupAL stateSeenAnnFull.spongos_store midA2 = none ∧
    (handle_message stateSeenAnnFull addrA3 ppKeyloadOrphan).2 =
      .ok .normal ∧
    (handle_message stateSeenAnnFull addrA3 ppKeyloadOrphan).1.spongos_store ≠
      stateSeenAnnFull.spongos_store := by
  decide

/-- **C6 (amended).** For subscription, unsubscription, signed-packet and
tagged-packet messages, a present header link whose spongos is absent makes
`handle_message` return `Ok` with an Orphan and leaves `spongos_store`
unchanged; keyload, by contrast, never returns an Orphan (its unwrap joins
the stored announcement spongos and ignores the header link). -/
theorem c6_orphan_amended :
    (∀ (s : State) (a : Address) (pp : Preparsed) (L : MsgId),
      pp.mtype = message_types.SUBSCRIPTION ∨
        pp.mtype = message_types.UNSUBSCRIPTION ∨
        pp.mtype = message_types.SIGNED_PACKET ∨
        pp.mtype = message_types.TAGGED_PACKET →
      pp.linked = some L → lookupAL s.spongos_store L = none →
      (handle_message s a pp).2 = .ok .orphanH ∧
      (handle_message s a pp).1.spongos_store = s.spongos_store) ∧
    (∀ (s : State) (a : Address) (pp : Preparsed),
      pp.mtype = message_types.KEYLOAD →
      (handle_message s a pp).2 ≠ .ok .orphanH) := by
  constructor
  · intro s a pp L hk hl habs
    rcases hk with hk | hk | hk | hk <;>
      simp only [handle_message, hk, message_types.SUBSCRIPTION,
        message_types.UNSUBSCRIPTION, message_types.SIGNED_PACKET,
        message_types.TAGGED_PACKET, message_types.ANNOUNCEMENT,
        message_types.KEYLOAD] <;>
      norm_num
    · rw [handle_subscription_orphan s a pp L hl habs]
      exact ⟨rfl, rfl⟩
    · rw [handle_unsubscription_orphan s a pp L hl habs]
      exact ⟨rfl, rfl⟩
    · rw [handle_signed_packet_orphan s a pp L hl habs]
      exact ⟨rfl, rfl⟩
    · rw [handle_tagged_packet_orphan s a pp L hl habs]
      exact ⟨rfl, rfl⟩
  · intro s a pp hk
    simp only [handle_message, hk, message_types.KEYLOAD,
      message_types.ANNOUNCEMENT, message_types.SUBSCRIPTION,
      message_types.UNSUBSCRIPTION]
    norm_num
    exact handle_keyload_no_orphan s a pp

/-- A signed packet from B linked to the absent `midA2`. -/
def ppSignedOrphanB : Preparsed :=
  { mtype := message_types.SIGNED_PACKET, publisher := idB, seq := 2
    linked := some midA2, payload := .packet [1] [2]
    unwrapOk := true, resSp := 9 }

theorem c6_orphan_amended_witness :
    ((handle_message stateSeenAnn addrB5 ppSignedOrphanB).2 =
        .ok .orphanH ∧
      (handle_message stateSeenAnn addrB5 ppSignedOrphanB).1.spongos_store =
        stateSeenAnn.spongos_store) ∧
    (handle_message stateSeenAnnFull addrA3 ppKeyloadOrphan).2 ≠
      .ok .orphanH := by
  refine ⟨c6_orphan_amended.1 stateSeenAnn addrB5 ppSignedOrphanB midA2
      (Or.inr (Or.inr (Or.inl rfl))) rfl (by decide),
    c6_orphan_amended.2 stateSeenAnnFull addrA3 ppKeyloadOrphan rfl⟩

/-! ## Cursor-advance lemmas (for C9) -/

theorem unsubscribe_cursor_advance (s : State) (t : Transport) (l : MsgId) :
    ∀ r, (unsubscribe s t l).2 = .ok r →
      ∃ id c, selfIdOf s = some id ∧
        lookupAL s.cursor_store id = some c ∧
        lookupAL (unsubscribe s t l).1.cursor_store id = some (c + 1) ∧
        r.seq = c + 1 := by
  unfold unsubscribe
  rcases hsa : s.stream_address with _ | sa
  · simp
  · rcases hu : s.user_id with _ | uid
    · simp
    · rcases hcur : lookupAL s.cursor_store uid.toIdentifier with _ | c
      · have hnc : next_cursor s = none := by
          simp [next_cursor, cursorOf, selfIdOf, hu, hcur]
        simp [hnc]
      · have hnc : next_cursor s = some (c + 1) := by
          simp [next_cursor, cursorOf, selfIdOf, hu, hcur]
        simp only [hnc]
        rcases hl : lookupAL s.spongos_store l with _ | sp
        · simp
        · simp only []
          split_ifs with ho hsend
          · simp
          · rintro r hr
            cases hr
            refine ⟨uid.toIdentifier, c, by simp [selfIdOf, hu], hcur, ?_, rfl⟩
            rw [lookupAL_insertCursor_self]
            simp [cursorAfterInsert, hcur]
          · simp

theorem send_keyload_cursor_advance (s : State) (t : Transport) (l : MsgId)
    (subscribers : List (Permissioned Identifier)) (psk_ids : List Nat) :
    ∀ r, (send_keyload s t l subscribers psk_ids).2 = .ok r →
      ∃ id c, selfIdOf s = some id ∧
        lookupAL s.cursor_store id = some c ∧
        lookupAL (send_keyload s t l subscribers psk_ids).1.cursor_store id =
          some (c + 1) ∧
        r.seq = c + 1 := by
  unfold send_keyload
  rcases hsa : s.stream_address with _ | sa
  · simp
  · rcases hu : s.user_id with _ | uid
    · simp
    · rcases hcur : lookupAL s.cursor_store uid.toIdentifier with _ | c
      · have hnc : next_cursor s = none := by
          simp [next_cursor, cursorOf, selfIdOf, hu, hcur]
        simp [hnc]
      · have hnc : next_cursor s = some (c + 1) := by
          simp [next_cursor, cursorOf, selfIdOf, hu, hcur]
        simp only [hnc]
        rcases hl : lookupAL s.spongos_store sa.relative with _ | annSp
        · simp [hl]
        · simp only [hl]
          split_ifs with h1 h2 ho hsend
          · simp
          · rintro r hr
            cases hr
            refine ⟨uid.toIdentifier, c, by simp [selfIdOf, hu], hcur, ?_, rfl⟩
            rw [lookupAL_insertCursor_self]
            have hfold := keyload_fold_preserves_cursor subscribers
              uid.toIdentifier c s hcur
            simp [cursorAfterInsert, hfold]
          · simp
          · simp
          · simp

theorem send_signed_packet_cursor_advance (s : State) (t : Transport)
    (l : MsgId) (pubp mskp : List Nat) :
    ∀ r, (send_signed_packet s t l pubp mskp).2 = .ok r →
      ∃ id c, selfIdOf s = some id ∧
        lookupAL s.cursor_store id = some c ∧
        lookupAL (send_signed_packet s t l pubp mskp).1.cursor_store id =
          some (c + 1) ∧
        r.seq = c + 1 := by
  unfold send_signed_packet
  rcases hsa : s.stream_address with _ | sa
  · simp
  · rcases hid : selfIdOf s with _ | selfId
    · have hnc : next_cursor s = none := by simp [next_cursor, cursorOf, hid]
      simp [hnc, hid]
    · rcases hcur : lookupAL s.cursor_store selfId with _ | c
      · have hnc : next_cursor s = none := by
          simp [next_cursor, cursorOf, hid, hcur]
        simp [hnc, hid]
      · have hnc : next_cursor s = some (c + 1) := by
          simp [next_cursor, cursorOf, hid, hcur]
        simp only [hnc, hid]
        rcases hl : lookupAL s.spongos_store l with _ | sp
        · simp
        · simp only []
          split_ifs with ho hsend
          · simp
          · rintro r hr
            cases hr
            refine ⟨selfId, c, rfl, hcur, ?_, rfl⟩
            rw [lookupAL_insertCursor_self]
            simp [cursorAfterInsert, hcur]
          · simp

theorem send_tagged_packet_cursor_advance (s : State) (t : Transport)
    (l : MsgId) (pubp mskp : List Nat) :
    ∀ r, (send_tagged_packet s t l pubp mskp).2 = .ok r →
      ∃ id c, selfIdOf s = some id ∧
        lookupAL s.cursor_store id = some c ∧
        lookupAL (send_tagged_packet s t l pubp mskp).1.cursor_store id =
          some (c + 1) ∧
        r.seq = c + 1 := by
  unfold send_tagged_packet
  rcases hsa : s.stream_address with _ | sa
  · simp
  · rcases hid : selfIdOf s with _ | selfId
    · have hnc : next_cursor s = none := by simp [next_cursor, cursorOf, hid]
      simp [hnc, hid]
    · rcases hcur : lookupAL s.cursor_store selfId with _ | c
      · have hnc : next_cursor s = none := by
          simp [next_cursor, cursorOf, hid, hcur]
        simp [hnc, hid]
      · have hnc : next_cursor s = some (c + 1) := by
          simp [next_cursor, cursorOf, hid, hcur]
        simp only [hnc, hid]
        rcases hl : lookupAL s.spongos_store l with _ | sp
        · simp
        · simp only []
          split_ifs with ho hsend
          · simp
          · rintro r hr
            cases hr
            refine ⟨selfId, c, rfl, hcur, ?_, rfl⟩
            rw [lookupAL_insertCursor_self]
            simp [cursorAfterInsert, hcur]
          · simp

theorem create_stream_seq (s : State) (t : Transport) (idx : Nat) :
    ∀ r, (create_stream s t idx).2 = .ok r → r.seq = ANN_MESSAGE_NUM := by
  unfold create_stream
  rcases hsa : s.stream_address with _ | sa
  · rcases hu : s.user_id with _ | uid
    · simp
    · simp only [Option.isSome_none, Bool.false_eq_true, if_false]
      split_ifs with ho hs
      · simp
      · rintro r hr
        cases hr
        rfl
      · simp
  · simp

theorem subscribe_seq (s : State) (t : Transport) (l : MsgId) :
    ∀ r, (subscribe s t l).2 = .ok r → r.seq = SUB_MESSAGE_NUM := by
  unfold subscribe
  rcases hsa : s.stream_address with _ | sa
  · simp
  · rcases hu : s.user_id with _ | uid
    · simp
    · rcases hl : lookupAL s.spongos_store l with _ | sp
      · simp
      · rcases hak : s.author_identifier.bind (lookupAL s.exchange_keys)
          with _ | ak
        · simp
        · simp only []
          split_ifs with ho hs
          · simp
          · rintro r hr
            cases hr
            rfl
          · simp

/-- **C9.** Every successful unsubscription, keyload, signed-packet or
tagged-packet send advances the sender's own cursor by exactly one (the
message carries the new cursor as its sequence number), while announcement
and subscription sends carry the fixed sequence values
`ANN_MESSAGE_NUM = 0` and `SUB_MESSAGE_NUM = 0`. -/
theorem c9_cursor_monotonicity :
    (∀ (s : State) (t : Transport) (l : MsgId) (r : Sent),
      (unsubscribe s t l).2 = .ok r →
      ∃ id c, selfIdOf s = some id ∧
        lookupAL s.cursor_store id = some c ∧
        lookupAL (unsubscribe s t l).1.cursor_store id = some (c + 1) ∧
        r.seq = c + 1) ∧
    (∀ (s : State) (t : Transport) (l : MsgId)
        (subscribers : List (Permissioned Identifier)) (psk_ids : List Nat)
        (r : Sent),
      (send_keyload s t l subscribers psk_ids).2 = .ok r →
      ∃ id c, selfIdOf s = some id ∧
        lookupAL s.cursor_store id = some c ∧
        lookupAL (send_keyload s t l subscribers psk_ids).1.cursor_store id =
          some (c + 1) ∧
        r.seq = c + 1) ∧
    (∀ (s : State) (t : Transport) (l : MsgId) (p m : List Nat) (r : Sent),
      (send_signed_packet s t l p m).2 = .ok r →
      ∃ id c, selfIdOf s = some id ∧
        lookupAL s.cursor_store id = some c ∧
        lookupAL (send_signed_packet s t l p m).1.cursor_store id =
          some (c + 1) ∧
        r.seq = c + 1) ∧
    (∀ (s : State) (t : Transport) (l : MsgId) (p m : List Nat) (r : Sent),
      (send_tagged_packet s t l p m).2 = .ok r →
      ∃ id c, selfIdOf s = some id ∧
        lookupAL s.cursor_store id = some c ∧
        lookupAL (send_tagged_packet s t l p m).1.cursor_store id =
          some (c + 1) ∧
        r.seq = c + 1) ∧
    (∀ (s : State) (t : Transport) (idx : Nat) (r : Sent),
      (create_stream s t idx).2 = .ok r → r.seq = ANN_MESSAGE_NUM) ∧
    (∀ (s : State) (t : Transport) (l : MsgId) (r : Sent),
      (subscribe s t l).2 = .ok r → r.seq = SUB_MESSAGE_NUM) :=
  ⟨fun s t l => unsubscribe_cursor_advance s t l,
    fun s t l subscribers psk_ids =>
      send_keyload_cursor_advance s t l subscribers psk_ids,
    fun s t l p m => send_signed_packet_cursor_advance s t l p m,
    fun s t l p m => send_tagged_packet_cursor_advance s t l p m,
    fun s t idx => create_stream_seq s t idx,
    fun s t l => subscribe_seq s t l⟩

theorem c9_cursor_monotonicity_witness :
    lookupAL (unsubscribe stateReadyB tFree midAnn).1.cursor_store idB =
      some 2 ∧
    lookupAL (send_signed_packet stateReadyB tFree midAnn
      [1] [2]).1.cursor_store idB = some 2 ∧
    lookupAL (send_tagged_packet stateReadyB tFree midAnn
      [1] [2]).1.cursor_store idB = some 2 ∧
    lookupAL (send_keyload stateReadyA tFree midAnn
      [.readWrite idB 0] []).1.cursor_store idA = some 2 ∧
    (2 : Nat) = 1 + 1 ∧
    rCreateA.seq = ANN_MESSAGE_NUM := by
  obtain ⟨hu, hk, hsg, htg, hcr, _⟩ := c9_cursor_monotonicity
  refine ⟨?_, ?_, ?_, ?_, rfl, ?_⟩
  · obtain ⟨id, c, hid, hc, hafter, hseq⟩ := hu stateReadyB tFree midAnn
      { addr := addrB2, seq := 2, mtype := message_types.UNSUBSCRIPTION }
      (by rfl)
    have hideq : id = idB := Option.some.inj
      (hid.symm.trans (show selfIdOf stateReadyB = some idB from rfl))
    subst hideq
    have hceq : c = 1 := Option.some.inj
      (hc.symm.trans
        (show lookupAL stateReadyB.cursor_store idB = some 1 from rfl))
    subst hceq
    exact hafter
  · obtain ⟨id, c, hid, hc, hafter, hseq⟩ := hsg stateReadyB tFree midAnn
      [1] [2]
      { addr := addrB2, seq := 2, mtype := message_types.SIGNED_PACKET }
      (by rfl)
    have hideq : id = idB := Option.some.inj
      (hid.symm.trans (show selfIdOf stateReadyB = some idB from rfl))
    subst hideq
    have hceq : c = 1 := Option.some.inj
      (hc.symm.trans
        (show lookupAL stateReadyB.cursor_store idB = some 1 from rfl))
    subst hceq
    exact hafter
  · obtain ⟨id, c, hid, hc, hafter, hseq⟩ := htg stateReadyB tFree midAnn
      [1] [2]
      { addr := addrB2, seq := 2, mtype := message_types.TAGGED_PACKET }
      (by rfl)
    have hideq : id = idB := Option.some.inj
      (hid.symm.trans (show selfIdOf stateReadyB = some idB from rfl))
    subst hideq
    have hceq : c = 1 := Option.some.inj
      (hc.symm.trans
        (show lookupAL stateReadyB.cursor_store idB = some 1 from rfl))
    subst hceq
    exact hafter
  · obtain ⟨id, c, hid, hc, hafter, hseq⟩ := hk stateReadyA tFree midAnn
      [.readWrite idB 0] []
      { addr := addrA2, seq := 2, mtype := message_types.KEYLOAD }
      (by rfl)
    have hideq : id = idA := Option.some.inj
      (hid.symm.trans (show selfIdOf stateReadyA = some idA from rfl))
    subst hideq
    have hceq : c = 1 := Option.some.inj
      (hc.symm.trans
        (show lookupAL stateReadyA.cursor_store idA = some 1 from rfl))
    subst hceq
    exact hafter
  · exact hcr stateA0 tFree 0 rCreateA (by rfl)

/-! ## State serialization: codecs

`backup`/`restore` drive `ContentSizeof<State>` / `ContentWrap<State>` /
`ContentUnwrap<State>` (`src/streams/src/api/user.rs`).  The field types'
own DDML images (`Identifier`, `Identity`, addresses, `Size`, `Maybe`) are
declared outside the provided sources and are modelled from the spec: a
oneof tag byte followed by fixed-width content (Ed25519/x25519/DID material
32 bytes, PSK ids 16 bytes, stream indexes and sequence numbers 8 bytes);
`Size` is a length byte followed by that many value bytes; `Maybe` is a
presence byte optionally followed by the content; everything in the state
serialization is `mask`ed. -/

/-- Fuel-driven base-256 digit count (the fuel bounds the recursion). -/
def numBytesAux : Nat → Nat → Nat
  | 0, _ => 0
  | fuel + 1, n => if n = 0 then 0 else numBytesAux fuel (n / 256) + 1

/-- Number of bytes of the variable-length `Size` encoding. -/
def numBytes (n : Nat) : Nat := numBytesAux n n

theorem numBytesAux_eq (fuel n : Nat) (h : n ≤ fuel) :
    numBytesAux fuel n = if n = 0 then 0 else Nat.log 256 n + 1 := by
  induction fuel generalizing n with
  | zero =>
    have hn : n = 0 := Nat.le_zero.mp h
    subst hn
    rfl
  | succ f ih =>
    by_cases hn : n = 0
    · simp [numBytesAux, hn]
    · have hpos : 0 < n := Nat.pos_of_ne_zero hn
      have hdiv : n / 256 ≤ f := by
        have := Nat.div_lt_self hpos (by norm_num : (1 : Nat) < 256)
        omega
      simp only [numBytesAux, if_neg hn]
      rw [ih _ hdiv]
      by_cases h2 : n / 256 = 0
      · have hlt : n < 256 := (Nat.div_eq_zero_iff (by norm_num)).mp h2
        have : Nat.log 256 n = 0 := Nat.log_eq_zero_iff.mpr (Or.inl hlt)
        simp [h2, this]
      · have hge : 256 ≤ n := by
          rcases Nat.lt_or_ge n 256 with hlt | hge
          · exact absurd ((Nat.div_eq_zero_iff (by norm_num)).mpr hlt) h2
          · exact hge
        have hlogpos : 0 < Nat.log 256 n :=
          Nat.log_pos (by norm_num) hge
        have hdivlog : Nat.log 256 (n / 256) = Nat.log 256 n - 1 :=
          Nat.log_div_base 256 n
        rw [if_neg h2, hdivlog]
        omega

theorem numBytes_eq (n : Nat) :
    numBytes n = if n = 0 then 0 else Nat.log 256 n + 1 :=
  numBytesAux_eq n n le_rfl

theorem lt_pow_numBytes (n : Nat) : n < 256 ^ numBytes n := by
  rw [numBytes_eq]
  split
  · omega
  · exact Nat.lt_pow_succ_log_self (by norm_num) n

theorem numBytes_le (n w : Nat) (h : n < 256 ^ w) : numBytes n ≤ w := by
  rw [numBytes_eq]
  split
  · omega
  · have := Nat.log_lt_of_lt_pow (by assumption) h
    omega

theorem take_append_exact (l1 l2 : List α) (n : Nat) (h : l1.length = n) :
    (l1 ++ l2).take n = l1 := by
  subst h
  exact List.take_left _ _

theorem drop_append_exact (l1 l2 : List α) (n : Nat) (h : l1.length = n) :
    (l1 ++ l2).drop n = l2 := by
  subst h
  exact List.drop_left _ _

/-- `mask` of a `w`-byte big-endian value on the wrap side. -/
def wMaskNat (w : Nat) (st v : Nat) : List Nat × Nat :=
  maskEncBytes st (natToBytesBE w v)

/-- `mask` of `w` bytes on the unwrap side, decoded big-endian. -/
def uMaskNat (w : Nat) (c : UCtx) : Option (Nat × UCtx) :=
  if w ≤ c.inp.length then
    match maskDecBytes c.st (c.inp.take w) with
    | (ps, st2) => some (bytesToNatBE ps, ⟨st2, c.inp.drop w⟩)
  else none

theorem uMaskNat_spec (st w v : Nat) (rest : List Nat) (hv : v < 256 ^ w) :
    uMaskNat w ⟨st, (wMaskNat w st v).1 ++ rest⟩ =
      some (v, ⟨(wMaskNat w st v).2, rest⟩) := by
  have hlen : (wMaskNat w st v).1.length = w := by
    rw [wMaskNat, maskEncBytes_length, natToBytesBE_length]
  have htake := take_append_exact (wMaskNat w st v).1 rest w hlen
  have hdrop := drop_append_exact (wMaskNat w st v).1 rest w hlen
  have hrt := maskDecBytes_maskEncBytes st (natToBytesBE w v)
    (natToBytesBE_lt w v)
  unfold uMaskNat
  rw [if_pos (by simp [hlen])]
  simp only [htake, hdrop]
  rw [show (wMaskNat w st v).1 = (maskEncBytes st (natToBytesBE w v)).1
    from rfl, hrt]
  simp [bytesToNatBE_natToBytesBE_of_lt hv, wMaskNat, maskEncBytes_state]

theorem wMaskNat_length (w st v : Nat) : (wMaskNat w st v).1.length = w := by
  rw [wMaskNat, maskEncBytes_length, natToBytesBE_length]

/-- Well-formedness of an `Identifier`: the content fits its fixed width. -/
def wfId : Identifier → Prop
  | .ed n => n < 256 ^ 32
  | .psk n => n < 256 ^ 16
  | .did n => n < 256 ^ 32

instance : DecidablePred wfId := fun id => by
  cases id <;> simp only [wfId] <;> infer_instance

/-- Well-formedness of an `Identity`. -/
def wfIdentity : Identity → Prop
  | .keyPair s k => s < 256 ^ 32 ∧ k < 256 ^ 32
  | .pskI p => p < 256 ^ 32
  | .didI d => d < 256 ^ 32

instance : DecidablePred wfIdentity := fun uid => by
  cases uid <;> simp only [wfIdentity] <;> infer_instance

/-- Well-formedness of an `AppAddr`. -/
def wfAppAddr (a : AppAddr) : Prop := wfId a.author ∧ a.streamIdx < 256 ^ 8

instance : DecidablePred wfAppAddr := fun a => by
  unfold wfAppAddr; infer_instance

/-- Well-formedness of a `MsgId`. -/
def wfMsgId (m : MsgId) : Prop :=
  wfAppAddr m.base ∧ wfId m.publisher ∧ m.seq < 256 ^ 8

instance : DecidablePred wfMsgId := fun m => by
  unfold wfMsgId; infer_instance

/-- Well-formedness of an `Address`. -/
def wfAddress (a : Address) : Prop := wfAppAddr a.base ∧ wfMsgId a.relative

instance : DecidablePred wfAddress := fun a => by
  unfold wfAddress; infer_instance

/-- Lift a predicate over `Option` (`none` is well-formed). -/
def wfOpt (P : α → Prop) : Option α → Prop
  | none => True
  | some x => P x

instance (P : α → Prop) [DecidablePred P] : DecidablePred (wfOpt P) := fun o =>
  match o with
  | none => .isTrue trivial
  | some x => by simp only [wfOpt]; infer_instance

/-! Pure field encodings.  A sequence of `mask` commands over consecutive
fields equals a single `mask` over the concatenated field encodings
(`cipherOf_append`), so the wrap context is modelled as one `maskEncBytes`
over the concatenation, with the `enc*` functions giving the per-command
grouping in the order of the Rust `ContentWrap` impls.  The unwrap side
stays command-by-command, mirroring `ContentUnwrap`. -/

/-- Ciphertext emitted by `mask`ing `bs` at sponge state `st`. -/
def cipherOf (st : Nat) (bs : List Nat) : List Nat :=
  (maskEncBytes st bs).1

theorem cipherOf_length (st : Nat) (bs : List Nat) :
    (cipherOf st bs).length = bs.length := by
  rw [cipherOf, maskEncBytes_length]

theorem absorbBytes_append (st : Nat) (a b : List Nat) :
    absorbBytes st (a ++ b) = absorbBytes (absorbBytes st a) b := by
  simp [absorbBytes, List.foldl_append]

theorem cipherOf_append (st : Nat) (a b : List Nat) :
    cipherOf st (a ++ b) = cipherOf st a ++ cipherOf (absorbBytes st a) b := by
  unfold cipherOf
  induction a generalizing st with
  | nil => simp [maskEncBytes, absorbBytes]
  | cons p ps ih =>
    simp only [List.cons_append, maskEncBytes]
    rw [show absorbBytes st (p :: ps) = absorbBytes (absorbByte st p) ps from
      rfl]
    simp [ih]

theorem uMaskNat_enc (st w v : Nat) (rest : List Nat) (hv : v < 256 ^ w) :
    uMaskNat w ⟨st, cipherOf st (natToBytesBE w v) ++ rest⟩ =
      some (v, ⟨absorbBytes st (natToBytesBE w v), rest⟩) := by
  have h := uMaskNat_spec st w v rest hv
  rw [show (wMaskNat w st v).2 = absorbBytes st (natToBytesBE w v) from
    maskEncBytes_state st (natToBytesBE w v)] at h
  exact h

/-! Composite unwrap codecs.  `?` chaining of fallible `mask` reads is
modelled by the sequencing combinator `uSeq`. -/

/-- Sequencing of two fallible unwrap reads (the `?` operator). -/
def uSeq {α β : Type} (u1 : UCtx → Option (α × UCtx))
    (k : α → UCtx → Option (β × UCtx)) (c : UCtx) : Option (β × UCtx) :=
  match u1 c with
  | none => none
  | some (a, c1) => k a c1

theorem uSeq_spec {α β : Type} (u1 : UCtx → Option (α × UCtx))
    (k : α → UCtx → Option (β × UCtx)) (c c1 c2 : UCtx) (a : α) (b : β)
    (h1 : u1 c = some (a, c1)) (h2 : k a c1 = some (b, c2)) :
    uSeq u1 k c = some (b, c2) := by
  unfold uSeq
  rw [h1]
  exact h2

/-- Unwrap (`mask`) an `Identifier`: oneof tag byte, then the content. -/
def uMaskIdentifier : UCtx → Option (Identifier × UCtx) :=
  uSeq (uMaskNat 1) (fun t =>
    if t = 0 then uSeq (uMaskNat 32) (fun n c2 => some (.ed n, c2))
    else if t = 1 then uSeq (uMaskNat 16) (fun n c2 => some (.psk n, c2))
    else if t = 2 then uSeq (uMaskNat 32) (fun n c2 => some (.did n, c2))
    else fun _ => none)

/-- Unwrap (`mask`) an `Identity`: oneof tag byte, then the secret parts. -/
def uMaskIdentity : UCtx → Option (Identity × UCtx) :=
  uSeq (uMaskNat 1) (fun t =>
    if t = 0 then
      uSeq (uMaskNat 32) (fun s =>
        uSeq (uMaskNat 32) (fun k c3 => some (.keyPair s k, c3)))
    else if t = 1 then uSeq (uMaskNat 32) (fun p c2 => some (.pskI p, c2))
    else if t = 2 then uSeq (uMaskNat 32) (fun d c2 => some (.didI d, c2))
    else fun _ => none)

/-- Unwrap (`mask`) an `AppAddr`. -/
def uMaskAppAddr : UCtx → Option (AppAddr × UCtx) :=
  uSeq uMaskIdentifier (fun author =>
    uSeq (uMaskNat 8) (fun idx c2 =>
      some ({ author := author, streamIdx := idx }, c2)))

/-- Unwrap (`mask`) a `MsgId`. -/
def uMaskMsgId : UCtx → Option (MsgId × UCtx) :=
  uSeq uMaskAppAddr (fun base =>
    uSeq uMaskIdentifier (fun publisher =>
      uSeq (uMaskNat 8) (fun seq c3 =>
        some ({ base := base, publisher := publisher, seq := seq }, c3))))

/-- Unwrap (`mask`) an `Address`. -/
def uMaskAddress : UCtx → Option (Address × UCtx) :=
  uSeq uMaskAppAddr (fun base =>
    uSeq uMaskMsgId (fun relative c2 =>
      some ({ base := base, relative := relative }, c2)))

/-- Unwrap (`mask`) a DDML `Size`: a length byte, then that many bytes. -/
def uMaskSize : UCtx → Option (Nat × UCtx) :=
  uSeq (uMaskNat 1) (fun k => uMaskNat k)

/-- Unwrap (`mask`) a `Maybe`: presence byte, then the content if present. -/
def uMaskMaybe (uf : UCtx → Option (α × UCtx)) :
    UCtx → Option (Option α × UCtx) :=
  uSeq (uMaskNat 1) (fun t =>
    if t = 0 then fun c1 => some (none, c1)
    else if t = 1 then uSeq uf (fun x c2 => some (some x, c2))
    else fun _ => none)

/-- The count-indexed entry loop of `ContentUnwrap<State>`: read `n`
key-value pairs. -/
def uPairsLoop (uK : UCtx → Option (κ × UCtx))
    (uV : UCtx → Option (ν × UCtx)) : Nat → UCtx → Option (List (κ × ν) × UCtx)
  | 0 => fun c => some ([], c)
  | n + 1 =>
    uSeq uK (fun k =>
      uSeq uV (fun v =>
        uSeq (uPairsLoop uK uV n) (fun t c3 => some ((k, v) :: t, c3))))

/-- Unwrap a counted store: `Size` count, then that many entries. -/
def uMaskCounted (uK : UCtx → Option (κ × UCtx))
    (uV : UCtx → Option (ν × UCtx)) : UCtx → Option (List (κ × ν) × UCtx) :=
  uSeq uMaskSize (fun n => uPairsLoop uK uV n)

/-- `commit()?.squeeze(Mac::new(32))?` on the unwrap side: reads 32 raw
bytes and compares them against the squeeze of the committed state. -/
def uSqueezeMac32 (c : UCtx) : Option (Unit × UCtx) :=
  if 32 ≤ c.inp.length ∧ c.inp.take 32 = squeezeBytes (commitSt c.st) 32 then
    some ((), ⟨commitSt c.st, c.inp.drop 32⟩)
  else none

/-- Byte image of an `Identifier` (oneof tag, then content). -/
def encIdentifier : Identifier → List Nat
  | .ed n => natToBytesBE 1 0 ++ natToBytesBE 32 n
  | .psk n => natToBytesBE 1 1 ++ natToBytesBE 16 n
  | .did n => natToBytesBE 1 2 ++ natToBytesBE 32 n

/-- Byte image of an `Identity` (oneof tag, then secret material). -/
def encIdentity : Identity → List Nat
  | .keyPair s k =>
      natToBytesBE 1 0 ++ (natToBytesBE 32 s ++ natToBytesBE 32 k)
  | .pskI p => natToBytesBE 1 1 ++ natToBytesBE 32 p
  | .didI d => natToBytesBE 1 2 ++ natToBytesBE 32 d

/-- Byte image of an `AppAddr`. -/
def encAppAddr (a : AppAddr) : List Nat :=
  encIdentifier a.author ++ natToBytesBE 8 a.streamIdx

/-- Byte image of a `MsgId`. -/
def encMsgId (m : MsgId) : List Nat :=
  encAppAddr m.base ++ (encIdentifier m.publisher ++ natToBytesBE 8 m.seq)

/-- Byte image of an `Address`. -/
def encAddress (a : Address) : List Nat :=
  encAppAddr a.base ++ encMsgId a.relative

/-- Byte image of a DDML `Size` (length byte, then big-endian value). -/
def encSizeT (n : Nat) : List Nat :=
  natToBytesBE 1 (numBytes n) ++ natToBytesBE (numBytes n) n

/-- Byte image of a `Maybe` (presence byte, then content when present). -/
def encMaybe (f : α → List Nat) : Option α → List Nat
  | none => natToBytesBE 1 0
  | some x => natToBytesBE 1 1 ++ f x

/-- Byte image of a store's entries, in iteration order. -/
def encPairs (fK : κ → List Nat) (fV : ν → List Nat) :
    List (κ × ν) → List Nat
  | [] => []
  | (k, v) :: t => fK k ++ (fV v ++ encPairs fK fV t)

/-- Byte image of a counted store: `Size` count, then the entries. -/
def encCounted (fK : κ → List Nat) (fV : ν → List Nat)
    (l : List (κ × ν)) : List Nat :=
  encSizeT l.length ++ encPairs fK fV l

theorem uMaskIdentifier_spec (st : Nat) (id : Identifier) (rest : List Nat)
    (h : wfId id) :
    uMaskIdentifier ⟨st, cipherOf st (encIdentifier id) ++ rest⟩ =
      some (id, ⟨absorbBytes st (encIdentifier id), rest⟩) := by
  cases id with
  | ed n =>
    simp only [encIdentifier, absorbBytes_append]
    rw [cipherOf_append, List.append_assoc]
    unfold uMaskIdentifier
    refine uSeq_spec _ _ _ _ _ _ _ (uMaskNat_enc st 1 0 _ (by norm_num)) ?_
    beta_reduce
    rw [if_pos rfl]
    exact uSeq_spec _ _ _ _ _ _ _ (uMaskNat_enc _ 32 n rest h) rfl
  | psk n =>
    simp only [encIdentifier, absorbBytes_append]
    rw [cipherOf_append, List.append_assoc]
    unfold uMaskIdentifier
    refine uSeq_spec _ _ _ _ _ _ _ (uMaskNat_enc st 1 1 _ (by norm_num)) ?_
    beta_reduce
    rw [if_neg (by norm_num), if_pos rfl]
    exact uSeq_spec _ _ _ _ _ _ _ (uMaskNat_enc _ 16 n rest h) rfl
  | did n =>
    simp only [encIdentifier, absorbBytes_append]
    rw [cipherOf_append, List.append_assoc]
    unfold uMaskIdentifier
    refine uSeq_spec _ _ _ _ _ _ _ (uMaskNat_enc st 1 2 _ (by norm_num)) ?_
    beta_reduce
    rw [if_neg (by norm_num), if_neg (by norm_num), if_pos rfl]
    exact uSeq_spec _ _ _ _ _ _ _ (uMaskNat_enc _ 32 n rest h) rfl

theorem uMaskIdentity_spec (st : Nat) (uid : Identity) (rest : List Nat)
    (h : wfIdentity uid) :
    uMaskIdentity ⟨st, cipherOf st (encIdentity uid) ++ rest⟩ =
      some (uid, ⟨absorbBytes st (encIdentity uid), rest⟩) := by
  cases uid with
  | keyPair s k =>
    simp only [encIdentity, absorbBytes_append]
    rw [cipherOf_append, cipherOf_append, List.append_assoc,
      List.append_assoc]
    unfold uMaskIdentity
    refine uSeq_spec _ _ _ _ _ _ _ (uMaskNat_enc st 1 0 _ (by norm_num)) ?_
    beta_reduce
    rw [if_pos rfl]
    refine uSeq_spec _ _ _ _ _ _ _ (uMaskNat_enc _ 32 s _ h.1) ?_
    beta_reduce
    exact uSeq_spec _ _ _ _ _ _ _ (uMaskNat_enc _ 32 k rest h.2) rfl
  | pskI p =>
    simp only [encIdentity, absorbBytes_append]
    rw [cipherOf_append, List.append_assoc]
    unfold uMaskIdentity
    refine uSeq_spec _ _ _ _ _ _ _ (uMaskNat_enc st 1 1 _ (by norm_num)) ?_
    beta_reduce
    rw [if_neg (by norm_num), if_pos rfl]
    exact uSeq_spec _ _ _ _ _ _ _ (uMaskNat_enc _ 32 p rest h) rfl
  | didI d =>
    simp only [encIdentity, absorbBytes_append]
    rw [cipherOf_append, List.append_assoc]
    unfold uMaskIdentity
    refine uSeq_spec _ _ _ _ _ _ _ (uMaskNat_enc st 1 2 _ (by norm_num)) ?_
    beta_reduce
    rw [if_neg (by norm_num), if_neg (by norm_num), if_pos rfl]
    exact uSeq_spec _ _ _ _ _ _ _ (uMaskNat_enc _ 32 d rest h) rfl

theorem uMaskAppAddr_spec (st : Nat) (a : AppAddr) (rest : List Nat)
    (h : wfAppAddr a) :
    uMaskAppAddr ⟨st, cipherOf st (encAppAddr a) ++ rest⟩ =
      some (a, ⟨absorbBytes st (encAppAddr a), rest⟩) := by
  simp only [encAppAddr, absorbBytes_append]
  rw [cipherOf_append, List.append_assoc]
  unfold uMaskAppAddr
  refine uSeq_spec _ _ _ _ _ _ _ (uMaskIdentifier_spec st a.author _ h.1) ?_
  beta_reduce
  exact uSeq_spec _ _ _ _ _ _ _ (uMaskNat_enc _ 8 a.streamIdx rest h.2) rfl

theorem uMaskMsgId_spec (st : Nat) (m : MsgId) (rest : List Nat)
    (h : wfMsgId m) :
    uMaskMsgId ⟨st, cipherOf st (encMsgId m) ++ rest⟩ =
      some (m, ⟨absorbBytes st (encMsgId m), rest⟩) := by
  simp only [encMsgId, absorbBytes_append]
  rw [cipherOf_append, cipherOf_append]
  simp only [List.append_assoc]
  unfold uMaskMsgId
  refine uSeq_spec _ _ _ _ _ _ _ (uMaskAppAddr_spec st m.base _ h.1) ?_
  beta_reduce
  refine uSeq_spec _ _ _ _ _ _ _
    (uMaskIdentifier_spec _ m.publisher _ h.2.1) ?_
  beta_reduce
  exact uSeq_spec _ _ _ _ _ _ _ (uMaskNat_enc _ 8 m.seq rest h.2.2) rfl

theorem uMaskAddress_spec (st : Nat) (a : Address) (rest : List Nat)
    (h : wfAddress a) :
    uMaskAddress ⟨st, cipherOf st (encAddress a) ++ rest⟩ =
      some (a, ⟨absorbBytes st (encAddress a), rest⟩) := by
  simp only [encAddress, absorbBytes_append]
  rw [cipherOf_append]
  simp only [List.append_assoc]
  unfold uMaskAddress
  refine uSeq_spec _ _ _ _ _ _ _ (uMaskAppAddr_spec st a.base _ h.1) ?_
  beta_reduce
  exact uSeq_spec _ _ _ _ _ _ _ (uMaskMsgId_spec _ a.relative rest h.2) rfl

theorem uMaskSize_spec (st n : Nat) (rest : List Nat) (h : n < 256 ^ 255) :
    uMaskSize ⟨st, cipherOf st (encSizeT n) ++ rest⟩ =
      some (n, ⟨absorbBytes st (encSizeT n), rest⟩) := by
  have hnb : numBytes n < 256 ^ 1 := by
    have h2 := numBytes_le n 255 h
    rw [pow_one]
    omega
  simp only [encSizeT, absorbBytes_append]
  rw [cipherOf_append, List.append_assoc]
  unfold uMaskSize
  refine uSeq_spec _ _ _ _ _ _ _ (uMaskNat_enc st 1 (numBytes n) _ hnb) ?_
  beta_reduce
  exact uMaskNat_enc _ (numBytes n) n rest (lt_pow_numBytes n)

theorem uMaskMaybe_spec (uf : UCtx → Option (α × UCtx)) (f : α → List Nat)
    (P : α → Prop)
    (hf : ∀ st x rest, P x → uf ⟨st, cipherOf st (f x) ++ rest⟩ =
      some (x, ⟨absorbBytes st (f x), rest⟩))
    (st : Nat) (o : Option α) (rest : List Nat) (h : wfOpt P o) :
    uMaskMaybe uf ⟨st, cipherOf st (encMaybe f o) ++ rest⟩ =
      some (o, ⟨absorbBytes st (encMaybe f o), rest⟩) := by
  cases o with
  | none =>
    simp only [encMaybe]
    unfold uMaskMaybe
    refine uSeq_spec _ _ _ _ _ _ _ (uMaskNat_enc st 1 0 rest (by norm_num)) ?_
    beta_reduce
    rw [if_pos rfl]
  | some x =>
    simp only [encMaybe, absorbBytes_append]
    rw [cipherOf_append, List.append_assoc]
    unfold uMaskMaybe
    refine uSeq_spec _ _ _ _ _ _ _ (uMaskNat_enc st 1 1 _ (by norm_num)) ?_
    beta_reduce
    rw [if_neg (by norm_num), if_pos rfl]
    exact uSeq_spec _ _ _ _ _ _ _ (hf _ x rest h) rfl

/-- Element-wise well-formedness of store entries. -/
def wfPairs (PK : κ → Prop) (PV : ν → Prop) (l : List (κ × ν)) : Prop :=
  ∀ e ∈ l, PK e.1 ∧ PV e.2

instance (PK : κ → Prop) (PV : ν → Prop) [DecidablePred PK] [DecidablePred PV]
    (l : List (κ × ν)) : Decidable (wfPairs PK PV l) := by
  unfold wfPairs; infer_instance

theorem uPairsLoop_spec (uK : UCtx → Option (κ × UCtx))
    (uV : UCtx → Option (ν × UCtx)) (fK : κ → List Nat) (fV : ν → List Nat)
    (PK : κ → Prop) (PV : ν → Prop)
    (hK : ∀ st x rest, PK x → uK ⟨st, cipherOf st (fK x) ++ rest⟩ =
      some (x, ⟨absorbBytes st (fK x), rest⟩))
    (hV : ∀ st x rest, PV x → uV ⟨st, cipherOf st (fV x) ++ rest⟩ =
      some (x, ⟨absorbBytes st (fV x), rest⟩))
    (l : List (κ × ν)) (st : Nat) (rest : List Nat)
    (h : wfPairs PK PV l) :
    uPairsLoop uK uV l.length ⟨st, cipherOf st (encPairs fK fV l) ++ rest⟩ =
      some (l, ⟨absorbBytes st (encPairs fK fV l), rest⟩) := by
  induction l generalizing st with
  | nil =>
    simp [uPairsLoop, encPairs, cipherOf, maskEncBytes, absorbBytes]
  | cons e t ih =>
    obtain ⟨k, v⟩ := e
    have hkv := h (k, v) (List.mem_cons_self _ _)
    simp only [encPairs, List.length_cons, absorbBytes_append]
    rw [cipherOf_append, cipherOf_append]
    simp only [List.append_assoc]
    rw [uPairsLoop]
    refine uSeq_spec _ _ _ _ _ _ _ (hK st k _ hkv.1) ?_
    beta_reduce
    refine uSeq_spec _ _ _ _ _ _ _ (hV _ v _ hkv.2) ?_
    beta_reduce
    exact uSeq_spec _ _ _ _ _ _ _
      (ih _ (fun e he => h e (List.mem_cons_of_mem _ he))) rfl

theorem uMaskCounted_spec (uK : UCtx → Option (κ × UCtx))
    (uV : UCtx → Option (ν × UCtx)) (fK : κ → List Nat) (fV : ν → List Nat)
    (PK : κ → Prop) (PV : ν → Prop)
    (hK : ∀ st x rest, PK x → uK ⟨st, cipherOf st (fK x) ++ rest⟩ =
      some (x, ⟨absorbBytes st (fK x), rest⟩))
    (hV : ∀ st x rest, PV x → uV ⟨st, cipherOf st (fV x) ++ rest⟩ =
      some (x, ⟨absorbBytes st (fV x), rest⟩))
    (l : List (κ × ν)) (st : Nat) (rest : List Nat)
    (h : wfPairs PK PV l) (hlen : l.length < 256 ^ 255) :
    uMaskCounted uK uV ⟨st, cipherOf st (encCounted fK fV l) ++ rest⟩ =
      some (l, ⟨absorbBytes st (encCounted fK fV l), rest⟩) := by
  simp only [encCounted, absorbBytes_append]
  rw [cipherOf_append, List.append_assoc]
  unfold uMaskCounted
  refine uSeq_spec _ _ _ _ _ _ _ (uMaskSize_spec st l.length _ hlen) ?_
  beta_reduce
  exact uPairsLoop_spec uK uV fK fV PK PV hK hV l _ rest h

theorem lookupAL_append_none [DecidableEq κ] (a b : List (κ × ν)) (k : κ)
    (ha : lookupAL a k = none) : lookupAL (a ++ b) k = lookupAL b k := by
  induction a with
  | nil => rfl
  | cons e t ih =>
    obtain ⟨k1, v1⟩ := e
    by_cases hk : k = k1
    · simp [lookupAL, hk] at ha
    · simp only [lookupAL, if_neg hk] at ha
      simpa [lookupAL, hk] using ih ha

theorem insertWithAL_fresh [DecidableEq κ] (f : ν → ν → ν)
    (m : List (κ × ν)) (k : κ) (v : ν) (h : lookupAL m k = none) :
    insertWithAL f m k v = m ++ [(k, v)] := by
  induction m with
  | nil => rfl
  | cons e t ih =>
    obtain ⟨k1, v1⟩ := e
    by_cases hk : k = k1
    · simp [lookupAL, hk] at h
    · simp only [lookupAL, if_neg hk] at h
      simp [insertWithAL, hk, ih h]

/-- Re-inserting a store's entries one by one into an accumulator with
fresh, pairwise-distinct keys appends them in order. -/
theorem foldl_insertWithAL_fresh [DecidableEq κ] (f : ν → ν → ν)
    (l : List (κ × ν)) (acc : List (κ × ν))
    (hnd : (keysAL l).Nodup)
    (hfresh : ∀ e ∈ l, lookupAL acc e.1 = none) :
    l.foldl (fun m e => insertWithAL f m e.1 e.2) acc = acc ++ l := by
  induction l generalizing acc with
  | nil => simp
  | cons e t ih =>
    obtain ⟨k, v⟩ := e
    have hnd1 : k ∉ keysAL t ∧ (keysAL t).Nodup := by
      simpa [keysAL] using hnd
    have hk : lookupAL acc k = none := hfresh (k, v) (List.mem_cons_self _ _)
    have hfresh2 : ∀ e ∈ t, lookupAL (acc ++ [(k, v)]) e.1 = none := by
      intro e he
      rw [lookupAL_append_none acc [(k, v)] e.1
        (hfresh e (List.mem_cons_of_mem _ he))]
      have hne : e.1 ≠ k := by
        intro hkk
        refine hnd1.1 ?_
        have hm := List.mem_map_of_mem Prod.fst he
        simpa [keysAL, hkk] using hm
      simp [lookupAL, hne]
    simp only [List.foldl_cons]
    rw [insertWithAL_fresh f acc k v hk, ih (acc ++ [(k, v)]) hnd1.2 hfresh2]
    simp

theorem foldl_insertAL_nodup [DecidableEq κ] (l : List (κ × ν))
    (hnd : (keysAL l).Nodup) :
    l.foldl (fun m e => insertAL m e.1 e.2) [] = l := by
  have h := foldl_insertWithAL_fresh (fun _ new => new) l [] hnd
    (fun e _ => rfl)
  simpa [insertAL] using h

theorem foldl_insertCursor_nodup (l : List (Identifier × Nat))
    (hnd : (keysAL l).Nodup) :
    l.foldl (fun m e => insertCursor m e.1 e.2) [] = l := by
  have h := foldl_insertWithAL_fresh (fun old new => max old new) l [] hnd
    (fun e _ => rfl)
  simpa [insertCursor] using h

/-! ## `backup` / `restore` (`src/streams/src/api/user.rs`) -/

/-- Modelled from the spec: `SpongosRng::<KeccakF1600>::new(pwd).gen()`, a
deterministic 32-byte key derived from the password. -/
def kdf (pwd : Nat) : Nat := pwd % 256 ^ 32

/-- Sponge state after `ctx.absorb(External::new(&NBytes::new(key)))` on a
fresh context (the key is absorbed, not written to the stream). -/
def kdfSt (pwd : Nat) : Nat := absorbBytes 0 (natToBytesBE 32 (kdf pwd))

/-- Byte image of `State` in the field order of `ContentWrap<State>`:
`Maybe` user id, `Maybe` stream address, `Maybe` author identifier, then the
four counted stores (spongos, cursors, exchange keys, PSKs), each a `Size`
count followed by masked key-value entries in iteration order. -/
def encState (s : State) : List Nat :=
  encMaybe encIdentity s.user_id ++
  (encMaybe encAddress s.stream_address ++
  (encMaybe encIdentifier s.author_identifier ++
  (encCounted encMsgId (natToBytesBE 8) s.spongos_store ++
  (encCounted encIdentifier encSizeT s.cursor_store ++
  (encCounted encIdentifier (natToBytesBE 32) s.exchange_keys ++
  encCounted (natToBytesBE 16) (natToBytesBE 32) s.psk_store)))))

/-- `User::backup`: absorb the password-derived key, `mask` all state
fields, then `commit` and write a 32-byte squeezed MAC.  The byte blob is
the ciphertext followed by the MAC. -/
def backup (s : State) (pwd : Nat) : List Nat :=
  cipherOf (kdfSt pwd) (encState s) ++
    squeezeBytes (commitSt (absorbBytes (kdfSt pwd) (encState s))) 32

/-- `ContentUnwrap<State>`: read the three `Maybe` headers, the four counted
stores (inserting entry by entry into `State::default()`'s maps —
`insert_cursor` for the cursor store), and check the final 32-byte MAC. -/
def unwrapState : UCtx → Option (State × UCtx) :=
  uSeq (uMaskMaybe uMaskIdentity) (fun uid =>
  uSeq (uMaskMaybe uMaskAddress) (fun sa =>
  uSeq (uMaskMaybe uMaskIdentifier) (fun ai =>
  uSeq (uMaskCounted uMaskMsgId (uMaskNat 8)) (fun sps =>
  uSeq (uMaskCounted uMaskIdentifier uMaskSize) (fun crs =>
  uSeq (uMaskCounted uMaskIdentifier (uMaskNat 32)) (fun eks =>
  uSeq (uMaskCounted (uMaskNat 16) (uMaskNat 32)) (fun psks =>
  uSeq uSqueezeMac32 (fun _ c => some (
    { user_id := uid
      stream_address := sa
      author_identifier := ai
      cursor_store := crs.foldl (fun m e => insertCursor m e.1 e.2) []
      psk_store := psks.foldl (fun m e => insertAL m e.1 e.2) []
      exchange_keys := eks.foldl (fun m e => insertAL m e.1 e.2) []
      spongos_store := sps.foldl (fun m e => insertAL m e.1 e.2) [] },
    c)))))))))

/-- `User::restore`: derive the key from the password, absorb it, unwrap
the state (`none` models a `?`-propagated error). -/
def restore (bs : List Nat) (pwd : Nat) : Option State :=
  match unwrapState ⟨kdfSt pwd, bs⟩ with
  | none => none
  | some (s, _) => some s

theorem uSqueezeMac32_spec (st : Nat) (rest : List Nat) :
    uSqueezeMac32 ⟨st, squeezeBytes (commitSt st) 32 ++ rest⟩ =
      some ((), ⟨commitSt st, rest⟩) := by
  have hlen : (squeezeBytes (commitSt st) 32).length = 32 := by
    simp [squeezeBytes, natToBytesBE_length]
  have hc : 32 ≤ (squeezeBytes (commitSt st) 32 ++ rest).length ∧
      (squeezeBytes (commitSt st) 32 ++ rest).take 32 =
        squeezeBytes (commitSt st) 32 :=
    ⟨by simp [hlen], take_append_exact _ _ _ hlen⟩
  unfold uSqueezeMac32
  dsimp only
  rw [if_pos hc, drop_append_exact _ _ _ hlen]

theorem uSqueezeMac32_exact (st : Nat) :
    uSqueezeMac32 ⟨st, squeezeBytes (commitSt st) 32⟩ =
      some ((), ⟨commitSt st, []⟩) := by
  have h := uSqueezeMac32_spec st []
  rwa [List.append_nil] at h

/-- Well-formedness of a `State` for serialization: every field fits its
codec width, store keys are duplicate-free (`HashMap` invariant), and the
entry counts fit a `Size`. -/
def wfState (s : State) : Prop :=
  wfOpt wfIdentity s.user_id ∧
  wfOpt wfAddress s.stream_address ∧
  wfOpt wfId s.author_identifier ∧
  (wfPairs wfMsgId (fun n => n < 256 ^ 8) s.spongos_store ∧
    (keysAL s.spongos_store).Nodup ∧ s.spongos_store.length < 256 ^ 255) ∧
  (wfPairs wfId (fun n => n < 256 ^ 255) s.cursor_store ∧
    (keysAL s.cursor_store).Nodup ∧ s.cursor_store.length < 256 ^ 255) ∧
  (wfPairs wfId (fun n => n < 256 ^ 32) s.exchange_keys ∧
    (keysAL s.exchange_keys).Nodup ∧ s.exchange_keys.length < 256 ^ 255) ∧
  (wfPairs (fun n => n < 256 ^ 16) (fun n => n < 256 ^ 32) s.psk_store ∧
    (keysAL s.psk_store).Nodup ∧ s.psk_store.length < 256 ^ 255)

instance : DecidablePred wfState := fun s => by
  unfold wfState; infer_instance

theorem unwrapState_backup (s : State) (pwd : Nat) (h : wfState s) :
    unwrapState ⟨kdfSt pwd,
        cipherOf (kdfSt pwd) (encState s) ++
          squeezeBytes (commitSt (absorbBytes (kdfSt pwd) (encState s))) 32⟩ =
      some (s, ⟨commitSt (absorbBytes (kdfSt pwd) (encState s)), []⟩) := by
  obtain ⟨h1, h2, h3, ⟨h4p, h4n, h4l⟩, ⟨h5p, h5n, h5l⟩,
    ⟨h6p, h6n, h6l⟩, h7p, h7n, h7l⟩ := h
  simp only [encState, absorbBytes_append]
  rw [cipherOf_append, cipherOf_append, cipherOf_append, cipherOf_append,
    cipherOf_append, cipherOf_append]
  simp only [List.append_assoc]
  unfold unwrapState
  refine uSeq_spec _ _ _ _ _ _ _
    (uMaskMaybe_spec uMaskIdentity encIdentity wfIdentity
      (fun st x rest hx => uMaskIdentity_spec st x rest hx)
      _ s.user_id _ h1) ?_
  beta_reduce
  refine uSeq_spec _ _ _ _ _ _ _
    (uMaskMaybe_spec uMaskAddress encAddress wfAddress
      (fun st x rest hx => uMaskAddress_spec st x rest hx)
      _ s.stream_address _ h2) ?_
  beta_reduce
  refine uSeq_spec _ _ _ _ _ _ _
    (uMaskMaybe_spec uMaskIdentifier encIdentifier wfId
      (fun st x rest hx => uMaskIdentifier_spec st x rest hx)
      _ s.author_identifier _ h3) ?_
  beta_reduce
  refine uSeq_spec _ _ _ _ _ _ _
    (uMaskCounted_spec uMaskMsgId (uMaskNat 8) encMsgId (natToBytesBE 8)
      wfMsgId (fun n => n < 256 ^ 8)
      (fun st x rest hx => uMaskMsgId_spec st x rest hx)
      (fun st x rest hx => uMaskNat_enc st 8 x rest hx)
      s.spongos_store _ _ h4p h4l) ?_
  beta_reduce
  refine uSeq_spec _ _ _ _ _ _ _
    (uMaskCounted_spec uMaskIdentifier uMaskSize encIdentifier encSizeT
      wfId (fun n => n < 256 ^ 255)
      (fun st x rest hx => uMaskIdentifier_spec st x rest hx)
      (fun st x rest hx => uMaskSize_spec st x rest hx)
      s.cursor_store _ _ h5p h5l) ?_
  beta_reduce
  refine uSeq_spec _ _ _ _ _ _ _
    (uMaskCounted_spec uMaskIdentifier (uMaskNat 32) encIdentifier
      (natToBytesBE 32) wfId (fun n => n < 256 ^ 32)
      (fun st x rest hx => uMaskIdentifier_spec st x rest hx)
      (fun st x rest hx => uMaskNat_enc st 32 x rest hx)
      s.exchange_keys _ _ h6p h6l) ?_
  beta_reduce
  refine uSeq_spec _ _ _ _ _ _ _
    (uMaskCounted_spec (uMaskNat 16) (uMaskNat 32) (natToBytesBE 16)
      (natToBytesBE 32) (fun n => n < 256 ^ 16) (fun n => n < 256 ^ 32)
      (fun st x rest hx => uMaskNat_enc st 16 x rest hx)
      (fun st x rest hx => uMaskNat_enc st 32 x rest hx)
      s.psk_store _ _ h7p h7l) ?_
  beta_reduce
  refine uSeq_spec _ _ _ _ _ _ _ (uSqueezeMac32_exact _) ?_
  beta_reduce
  rw [foldl_insertCursor_nodup _ h5n, foldl_insertAL_nodup _ h7n,
    foldl_insertAL_nodup _ h6n, foldl_insertAL_nodup _ h4n]

/-- **C7.** `restore(backup(U, pwd), pwd, transport)` succeeds and returns a
user with the same `State` (round-trip identity of the encrypted state
serialization), for any well-formed state and any password. -/
theorem c7_backup_restore_roundtrip (s : State) (pwd : Nat)
    (h : wfState s) : restore (backup s pwd) pwd = some s := by
  unfold restore backup
  rw [unwrapState_backup s pwd h]

/-- A small populated state: an identity, an author, two cursors, a PSK, an
exchange key and a stored spongos. -/
def c7exState : State :=
  { user_id := some (.keyPair 1 21)
    stream_address := none
    author_identifier := some (.ed 1)
    cursor_store := [(.ed 1, 1), (.ed 2, 5)]
    psk_store := [(3, 4)]
    exchange_keys := [(.ed 2, 22)]
    spongos_store := [({ base := { author := .ed 1, streamIdx := 0 }
                         publisher := .ed 1, seq := 0 }, 9)] }

theorem c7_backup_restore_roundtrip_witness :
    wfState c7exState ∧ restore (backup c7exState 77) 77 = some c7exState :=
  ⟨by decide, c7_backup_restore_roundtrip c7exState 77 (by decide)⟩

/-! ## `ContentSizeof` arithmetic (`sizeof::Context` byte counting) -/

/-- Size of an `Identifier`: tag byte plus fixed-width content. -/
def sizeofIdentifier : Identifier → Nat
  | .ed _ => 1 + 32
  | .psk _ => 1 + 16
  | .did _ => 1 + 32

/-- Size of an `Identity`. -/
def sizeofIdentity : Identity → Nat
  | .keyPair _ _ => 1 + (32 + 32)
  | .pskI _ => 1 + 32
  | .didI _ => 1 + 32

/-- Size of an `AppAddr`. -/
def sizeofAppAddr (a : AppAddr) : Nat := sizeofIdentifier a.author + 8

/-- Size of a `MsgId`. -/
def sizeofMsgId (m : MsgId) : Nat :=
  sizeofAppAddr m.base + (sizeofIdentifier m.publisher + 8)

/-- Size of an `Address`. -/
def sizeofAddress (a : Address) : Nat :=
  sizeofAppAddr a.base + sizeofMsgId a.relative

/-- Size of a DDML `Size`: length byte plus the value bytes. -/
def sizeofSize (n : Nat) : Nat := 1 + numBytes n

/-- Size of a `Maybe`: presence byte plus the content when present. -/
def sizeofMaybe (f : α → Nat) : Option α → Nat
  | none => 1
  | some x => 1 + f x

/-- Size of a store's entries. -/
def sizeofPairs (fK : κ → Nat) (fV : ν → Nat) : List (κ × ν) → Nat
  | [] => 0
  | (k, v) :: t => fK k + (fV v + sizeofPairs fK fV t)

/-- Size of a counted store. -/
def sizeofCounted (fK : κ → Nat) (fV : ν → Nat) (l : List (κ × ν)) : Nat :=
  sizeofSize l.length + sizeofPairs fK fV l

/-- `ContentSizeof<State>`: the three `Maybe` headers, the four counted
stores, and the final 32-byte `Mac`. -/
def sizeofState (s : State) : Nat :=
  sizeofMaybe sizeofIdentity s.user_id +
  (sizeofMaybe sizeofAddress s.stream_address +
  (sizeofMaybe sizeofIdentifier s.author_identifier +
  (sizeofCounted sizeofMsgId (fun _ => 8) s.spongos_store +
  (sizeofCounted sizeofIdentifier sizeofSize s.cursor_store +
  (sizeofCounted sizeofIdentifier (fun _ => 32) s.exchange_keys +
  (sizeofCounted (fun _ => 16) (fun _ => 32) s.psk_store + 32))))))

theorem length_encIdentifier (id : Identifier) :
    (encIdentifier id).length = sizeofIdentifier id := by
  cases id <;> simp [encIdentifier, sizeofIdentifier, natToBytesBE_length]

theorem length_encIdentity (uid : Identity) :
    (encIdentity uid).length = sizeofIdentity uid := by
  cases uid <;> simp [encIdentity, sizeofIdentity, natToBytesBE_length]

theorem length_encAppAddr (a : AppAddr) :
    (encAppAddr a).length = sizeofAppAddr a := by
  simp [encAppAddr, sizeofAppAddr, natToBytesBE_length, length_encIdentifier]

theorem length_encMsgId (m : MsgId) :
    (encMsgId m).length = sizeofMsgId m := by
  simp [encMsgId, sizeofMsgId, natToBytesBE_length, length_encIdentifier,
    length_encAppAddr]

theorem length_encAddress (a : Address) :
    (encAddress a).length = sizeofAddress a := by
  simp [encAddress, sizeofAddress, length_encAppAddr, length_encMsgId]

theorem length_encSizeT (n : Nat) : (encSizeT n).length = sizeofSize n := by
  simp [encSizeT, sizeofSize, natToBytesBE_length]

theorem length_encMaybe (f : α → List Nat) (g : α → Nat)
    (hf : ∀ x, (f x).length = g x) (o : Option α) :
    (encMaybe f o).length = sizeofMaybe g o := by
  cases o <;> simp [encMaybe, sizeofMaybe, natToBytesBE_length, hf]

theorem length_encPairs (fK : κ → List Nat) (fV : ν → List Nat)
    (gK : κ → Nat) (gV : ν → Nat)
    (hK : ∀ k, (fK k).length = gK k) (hV : ∀ v, (fV v).length = gV v)
    (l : List (κ × ν)) :
    (encPairs fK fV l).length = sizeofPairs gK gV l := by
  induction l with
  | nil => rfl
  | cons e t ih =>
    obtain ⟨k, v⟩ := e
    simp [encPairs, sizeofPairs, hK, hV, ih]

theorem length_encCounted (fK : κ → List Nat) (fV : ν → List Nat)
    (gK : κ → Nat) (gV : ν → Nat)
    (hK : ∀ k, (fK k).length = gK k) (hV : ∀ v, (fV v).length = gV v)
    (l : List (κ × ν)) :
    (encCounted fK fV l).length = sizeofCounted gK gV l := by
  simp [encCounted, sizeofCounted, length_encSizeT,
    length_encPairs fK fV gK gV hK hV]

theorem length_encState (s : State) :
    (encState s).length + 32 = sizeofState s := by
  unfold encState sizeofState
  simp only [List.length_append]
  rw [length_encMaybe encIdentity sizeofIdentity length_encIdentity,
    length_encMaybe encAddress sizeofAddress length_encAddress,
    length_encMaybe encIdentifier sizeofIdentifier length_encIdentifier,
    length_encCounted encMsgId (natToBytesBE 8) sizeofMsgId (fun _ => 8)
      length_encMsgId (fun v => natToBytesBE_length 8 v),
    length_encCounted encIdentifier encSizeT sizeofIdentifier sizeofSize
      length_encIdentifier length_encSizeT,
    length_encCounted encIdentifier (natToBytesBE 32) sizeofIdentifier
      (fun _ => 32) length_encIdentifier (fun v => natToBytesBE_length 32 v),
    length_encCounted (natToBytesBE 16) (natToBytesBE 32) (fun _ => 16)
      (fun _ => 32) (fun k => natToBytesBE_length 16 k)
      (fun v => natToBytesBE_length 32 v)]
  omega

/-- **C8.** The wrap output always fills the sizeof-allocated buffer
exactly: a `State` backup blob's length equals `ContentSizeof<State>`'s
count, and a wrapped `PCF` frame's length equals `ContentSizeof<PCF>`'s
count whenever the content writer emits its declared size, so the
size-mismatch assertion after wrapping never trips. -/
theorem c8_wrap_length_matches_sizeof :
    (∀ (s : State) (pwd : Nat), (backup s pwd).length = sizeofState s) ∧
    (∀ (st : Nat) (pcf : PCF α) (cw : Nat → α → List Nat × Nat)
      (csize : Nat), (∀ st2 x, (cw st2 x).1.length = csize) →
      (wrapPCF st pcf cw).1.length = sizeofPCF csize) := by
  constructor
  · intro s pwd
    unfold backup
    rw [List.length_append, cipherOf_length,
      show (squeezeBytes (commitSt (absorbBytes (kdfSt pwd)
        (encState s))) 32).length = 32 from natToBytesBE_length 32 _]
    exact length_encState s
  · intro st pcf cw csize hcw
    simp only [wrapPCF, wAbsorbBytes, wSkipBytes, sizeofPCF,
      List.length_append, List.length_cons, List.length_nil, hcw,
      pfnToNBytes3, List.length_drop, natToBytesBE_length]
    omega

theorem c8_wrap_length_matches_sizeof_witness :
    (backup State.default 3).length = sizeofState State.default ∧
    (wrapPCF 0 PCF.new_final_frame (fun st2 _ => ([7, 8], st2))).1.length =
      sizeofPCF 2 :=
  ⟨(@c8_wrap_length_matches_sizeof Unit).1 State.default 3,
    (@c8_wrap_length_matches_sizeof Unit).2 0 PCF.new_final_frame
      (fun st2 _ => ([7, 8], st2)) 2 (fun _ _ => rfl)⟩

/-! ## C1: `backup` depends on map iteration order

`ContentWrap<State>` iterates `spongos_store` (and the other maps) with
`for (k, v) in &map`, i.e. in the `HashMap`'s internal iteration order —
there is no sorting.  Two states equal under the maps' `PartialEq`
(order-independent) but with different internal orders produce different
blobs. -/

/-- `PartialEq for State` (derived): field equality with the four maps
compared as unordered key-value associations. -/
def stateEq (s1 s2 : State) : Bool :=
  s1.user_id == s2.user_id && s1.stream_address == s2.stream_address &&
  s1.author_identifier == s2.author_identifier &&
  mapEqAL s1.cursor_store s2.cursor_store &&
  mapEqAL s1.psk_store s2.psk_store &&
  mapEqAL s1.exchange_keys s2.exchange_keys &&
  mapEqAL s1.spongos_store s2.spongos_store

/-- A message id under author `.ed 1` with sequence `n`. -/
def c1msg (n : Nat) : MsgId :=
  { base := { author := .ed 1, streamIdx := 0 }, publisher := .ed 1
    seq := n }

/-- Two spongos-store entries in one iteration order. -/
def c1sA : State :=
  { State.default with spongos_store := [(c1msg 1, 11), (c1msg 2, 12)] }

/-- The same two entries in the opposite iteration order. -/
def c1sB : State :=
  { State.default with spongos_store := [(c1msg 2, 12), (c1msg 1, 11)] }

set_option maxRecDepth 8000 in
/-- **C1.** Refuted: `backup` is *not* a function of the map contents alone.
`c1sA` and `c1sB` are equal states under `State`'s `PartialEq` (the maps
hold identical associations), yet their backup blobs differ, because
`ContentWrap<State>` masks the entries in iteration order without sorting. -/
theorem c1_backup_order_dependent :
    stateEq c1sA c1sB = true ∧ backup c1sA 0 ≠ backup c1sB 0 := by decide
